import Mathlib

set_option maxHeartbeats 1000000
set_option maxRecDepth 20000
set_option exponentiation.threshold 1100

/-
Shallow embedding of the CraftConnect backend's AI-response handling.

Modelling conventions:
* JS strings are `List Char` (`JStr`).
* Stored JS numbers are `ℚ`; the result of a `Number(x)` coercion is
  `Option JNum` — a finite rational, `+Infinity` or `-Infinity` — with
  `none` standing for `NaN`. Magnitudes past the IEEE-754 double range
  collapse to the infinities at the coercion, so `Number("Infinity")`,
  `Number("1e999")` and `JSON.parse`d overflowing literals all coerce to
  `Infinity` exactly as in JS.
* JSON/JS values are the inductive `JValue`; the constructor `undef` models
  JavaScript `undefined` (e.g. reading an absent property).
* Property access `o.k` is `jsGet o k`; on non-objects it yields `undef`
  (the claims quantify over parsed objects, where this matches JS).
-/

abbrev JStr := List Char

inductive JValue where
  | undef : JValue
  | null : JValue
  | bool : Bool → JValue
  | num : ℚ → JValue
  | str : JStr → JValue
  | arr : List JValue → JValue
  | obj : List (JStr × JValue) → JValue

/-- Last-occurrence lookup: JSON.parse keeps the last duplicate key, so a
property read returns the value of the last entry with the given name. -/
def lookupLast (fields : List (JStr × JValue)) (k : JStr) : Option JValue :=
  match fields with
  | [] => none
  | (k2, v) :: rest =>
    match lookupLast rest k with
    | some r => some r
    | none => if k2 = k then some v else none

def jsGet (v : JValue) (k : JStr) : JValue :=
  match v with
  | JValue.obj fields =>
    match lookupLast fields k with
    | some x => x
    | none => JValue.undef
  | _ => JValue.undef

def jsTruthy : JValue → Bool
  | JValue.undef => false
  | JValue.null => false
  | JValue.bool b => b
  | JValue.num q => decide (q ≠ 0)
  | JValue.str s => decide (s ≠ [])
  | JValue.arr _ => true
  | JValue.obj _ => true

/-- JS `a || b`. -/
def jsOr (a b : JValue) : JValue := if jsTruthy a then a else b

/-- ASCII part of the JS `\s` class (enough for the repair regexes). -/
def isWSChar (c : Char) : Bool :=
  c = ' ' || c = '\t' || c = '\n' || c = '\r' || c = '\x0b' || c = '\x0c'

/-- The JS `\w` class: `[A-Za-z0-9_]`. -/
def isWordChar (c : Char) : Bool :=
  ('a' ≤ c && c ≤ 'z') || ('A' ≤ c && c ≤ 'Z') || c.isDigit || c = '_'

def digitVal (c : Char) : Nat := c.toNat - 48

def natOfDigits (ds : List Char) : Nat :=
  ds.foldl (fun a c => a * 10 + digitVal c) 0

def hexVal (c : Char) : Option Nat :=
  if c.isDigit then some (digitVal c)
  else if 'a' ≤ c && c ≤ 'f' then some (c.toNat - 87)
  else if 'A' ≤ c && c ≤ 'F' then some (c.toNat - 55)
  else none

def natOfHexDigits (ds : List Char) : Nat :=
  ds.foldl (fun a c => a * 16 + (hexVal c).getD 0) 0

/-- JS `parseInt(s)` with automatic radix: leading whitespace, optional sign,
`0x`/`0X` hexadecimal, otherwise leading decimal digits; `NaN` is `none`. -/
def jsParseInt (s : JStr) : Option Int :=
  let s1 := s.dropWhile isWSChar
  let sgn : Int := match s1 with
    | c :: _ => if c = '-' then -1 else 1
    | [] => 1
  let s2 : JStr := match s1 with
    | c :: r => if c = '-' || c = '+' then r else s1
    | [] => s1
  match s2 with
  | '0' :: c :: r =>
    if c = 'x' || c = 'X' then
      let hs := r.takeWhile (fun d => (hexVal d).isSome)
      if hs = [] then none else some (sgn * (natOfHexDigits hs : Int))
    else some (sgn * (natOfDigits (s2.takeWhile Char.isDigit) : Int))
  | _ =>
    let ds := s2.takeWhile Char.isDigit
    if ds = [] then none else some (sgn * (natOfDigits ds : Int))

def trimWS (s : JStr) : JStr :=
  ((s.dropWhile isWSChar).reverse.dropWhile isWSChar).reverse

/-- A full-string decimal numeric literal `[±][digits][.digits][e[±]digits]`
(used by the JS `Number(string)` coercion). -/
def parseDecimalNumber (s : JStr) : Option ℚ :=
  let sgn : ℚ := match s with
    | c :: _ => if c = '-' then -1 else 1
    | [] => 1
  let s1 : JStr := match s with
    | c :: r => if c = '-' || c = '+' then r else s
    | [] => s
  let ip := s1.takeWhile Char.isDigit
  let s2 := s1.dropWhile Char.isDigit
  let fp : JStr := match s2 with
    | '.' :: r => r.takeWhile Char.isDigit
    | _ => []
  let s3 : JStr := match s2 with
    | '.' :: r => r.dropWhile Char.isDigit
    | _ => s2
  if ip = [] ∧ fp = [] then none
  else
    let mant : ℚ := (natOfDigits (ip ++ fp) : ℚ) / (10 : ℚ) ^ fp.length
    match s3 with
    | [] => some (sgn * mant)
    | e :: r =>
      if e = 'e' || e = 'E' then
        let eneg : Bool := match r with
          | c :: _ => c = '-'
          | [] => false
        let r1 : JStr := match r with
          | c :: r2 => if c = '-' || c = '+' then r2 else r
          | [] => r
        let eds := r1.takeWhile Char.isDigit
        if eds = [] ∨ r1.dropWhile Char.isDigit ≠ [] then none
        else some (sgn * (if eneg then mant / (10 : ℚ) ^ natOfDigits eds
                          else mant * (10 : ℚ) ^ natOfDigits eds))
      else none

/-- An IEEE-754 double-range value as observed through `Number()`: a finite
rational or a signed infinity (`NaN` remains `Option.none`). Finite values
keep their exact rational value — binary rounding below the overflow
threshold is not modelled — but overflow to `±Infinity`, which the
sanitizers can observe, is. -/
inductive JNum where
  | fin (q : ℚ)
  | posInf
  | negInf
  deriving DecidableEq

/-- Magnitudes at or above `2^1024 - 2^970` round to `Infinity` under
IEEE-754 double round-to-nearest-even, so `Number("1e999")` and
`JSON.parse("1e999")` are `Infinity` (computed in `ℕ` so that concrete
inputs evaluate). -/
def ieeeMaxBound : ℚ := ((2 ^ 1024 - 2 ^ 970 : ℕ) : ℚ)

def jnOfRat (q : ℚ) : JNum :=
  if ieeeMaxBound ≤ q then JNum.posInf
  else if q ≤ -ieeeMaxBound then JNum.negInf
  else JNum.fin q

def strInfinity : JStr := "Infinity".toList

def strPlusInfinity : JStr := "+Infinity".toList

def strNegInfinity : JStr := "-Infinity".toList

/-- JS `Number(string)`: trimmed empty string is 0, the `Infinity` literals
are the infinities, hex literals are accepted, anything else must be a full
decimal literal, whose value overflows to `±Infinity` past the double
range; `none` is `NaN`. -/
def jsStringToNumber (s : JStr) : Option JNum :=
  let t := trimWS s
  if t = [] then some (JNum.fin 0)
  else if t = strInfinity ∨ t = strPlusInfinity then some JNum.posInf
  else if t = strNegInfinity then some JNum.negInf
  else match t with
  | '0' :: c :: r =>
    if c = 'x' || c = 'X' then
      if r ≠ [] ∧ r.all (fun d => (hexVal d).isSome) then some (jnOfRat (natOfHexDigits r : ℚ))
      else none
    else (parseDecimalNumber t).map jnOfRat
  | _ => (parseDecimalNumber t).map jnOfRat

/-- JS `Number(v)` coercion; `none` is `NaN` (arrays beyond the simple
singleton cases are approximated by `NaN`). A stored number passes through
`jnOfRat`: `JSON.parse` already reads a literal beyond the double range as
`Infinity`, and the model applies that overflow at the point of use. -/
def jsToNumber : JValue → Option JNum
  | JValue.undef => none
  | JValue.null => some (JNum.fin 0)
  | JValue.bool b => some (JNum.fin (if b then 1 else 0))
  | JValue.num q => some (jnOfRat q)
  | JValue.str s => jsStringToNumber s
  | JValue.arr [] => some (JNum.fin 0)
  | JValue.arr [x] =>
    match x with
    | JValue.num q => some (jnOfRat q)
    | JValue.str s => jsStringToNumber s
    | JValue.null => some (JNum.fin 0)
    | _ => none
  | JValue.arr _ => none
  | JValue.obj _ => none

/-- `Number(x) || d`: `NaN` and `0` are falsy and fall back to the default;
the infinities are truthy. -/
def numOr (o : Option JNum) (d : ℚ) : JNum :=
  match o with
  | some (JNum.fin q) => if q = 0 then JNum.fin d else JNum.fin q
  | some JNum.posInf => JNum.posInf
  | some JNum.negInf => JNum.negInf
  | none => JNum.fin d

/-- `Math.max` on non-`NaN` doubles (`Infinity` absorbs, `-Infinity` is
the identity). -/
def jnMax : JNum → JNum → JNum
  | JNum.posInf, _ => JNum.posInf
  | _, JNum.posInf => JNum.posInf
  | JNum.negInf, b => b
  | a, JNum.negInf => a
  | JNum.fin a, JNum.fin b => JNum.fin (max a b)

/-- `Math.min` on non-`NaN` doubles. -/
def jnMin : JNum → JNum → JNum
  | JNum.negInf, _ => JNum.negInf
  | _, JNum.negInf => JNum.negInf
  | JNum.posInf, b => b
  | a, JNum.posInf => a
  | JNum.fin a, JNum.fin b => JNum.fin (min a b)

/-- The JS `<=` comparison on non-`NaN` doubles (`Infinity <= Infinity`
is true). -/
def jnLe : JNum → JNum → Bool
  | JNum.fin a, JNum.fin b => decide (a ≤ b)
  | _, JNum.posInf => true
  | JNum.negInf, _ => true
  | _, _ => false

/-- The JS `<` comparison on non-`NaN` doubles (`Infinity < Infinity`
is false). -/
def jnLt : JNum → JNum → Bool
  | JNum.fin a, JNum.fin b => decide (a < b)
  | JNum.posInf, _ => false
  | _, JNum.posInf => true
  | JNum.negInf, JNum.negInf => false
  | JNum.negInf, _ => true
  | _, _ => false

/-- `x * 1.5`: a positive finite constant, so the infinities are
preserved. -/
def jnMulThreeHalves : JNum → JNum
  | JNum.fin q => JNum.fin (q * (3 / 2))
  | JNum.posInf => JNum.posInf
  | JNum.negInf => JNum.negInf

/- Keys and string constants of the business-analysis schema
(`validateAndRepairAnalysis` / `createFallbackAnalysis` in the AI controller). -/

def keyBusinessType : JStr := "businessType".toList
def keyDetectedFocus : JStr := "detectedFocus".toList
def keyTopProblems : JStr := "topProblems".toList
def keyRecommendedSolutions : JStr := "recommendedSolutions".toList
def keyPrimary : JStr := "primary".toList
def keySecondary : JStr := "secondary".toList
def keyId : JStr := "id".toList
def keyReason : JStr := "reason".toList
def keyConfidence : JStr := "confidence".toList

def idWebsite : JStr := "website".toList
def idWhatsapp : JStr := "whatsapp".toList
def idInstagram : JStr := "instagram".toList

def defaultBusinessType : JStr := "Craft Business".toList
def defaultDetectedFocus : JStr := "Handmade Products".toList
def defaultProblemUnable : JStr := "Unable to determine specific challenges".toList
def defaultProblemNone : JStr := "No specific challenges identified".toList
def defaultPrimaryReason : JValue := JValue.str ("A basic online presence is essential".toList)
def defaultSecondaryReason : JValue := JValue.str ("Direct customer communication".toList)

def fbPrimaryReason : JValue :=
  JValue.str ("A professional website builds credibility and showcases your products".toList)
def fbSecondaryReason : JValue :=
  JValue.str ("WhatsApp Business enables direct customer communication and orders".toList)
def fbProblem2 : JStr := "Limited online presence".toList
def fbProblem3 : JStr := "Need better customer reach".toList

@[ext]
structure Solution where
  id : JStr
  reason : JValue

/-- Output shape of the analysis normalizer. The JS normalizer's output has
no `fallback` key (reads as `undefined`, i.e. falsy), modelled as
`fallback := false`; `createFallbackAnalysis` sets `fallback: true`. -/
@[ext]
structure AnalysisResult where
  businessType : JStr
  detectedFocus : JStr
  topProblems : List JStr
  primary : Solution
  secondary : Solution
  confidence : ℚ
  fallback : Bool

def validSolutionIds : List JStr := [idWebsite, idWhatsapp, idInstagram]

/-- `typeof v === 'string' && v.length > 0 ? v : d`. -/
def repairNonemptyString (v : JValue) (d : JStr) : JStr :=
  match v with
  | JValue.str s => if s ≠ [] then s else d
  | _ => d

/-- The element predicate of the problems filter:
`typeof p === 'string' && p.length > 0`. -/
def keepProblem : JValue → Option JStr
  | JValue.str s => if s ≠ [] then some s else none
  | _ => none

/-- `xs.filter(p => typeof p === 'string' && p.length > 0)`. -/
def filterProblems (xs : List JValue) : List JStr :=
  xs.filterMap keepProblem

/-- `Array.isArray(v) && v.length > 0 ? filter : default`. -/
def repairTopProblems0 (v : JValue) : List JStr :=
  match v with
  | JValue.arr xs => if 0 < xs.length then filterProblems xs else [defaultProblemUnable]
  | _ => [defaultProblemUnable]

/-- The `topProblems` field: nonempty array filtered to nonempty strings,
then the later `length === 0` re-check substitutes a second default. -/
def repairTopProblems (v : JValue) : List JStr :=
  if (repairTopProblems0 v).length = 0 then [defaultProblemNone] else repairTopProblems0 v

/-- `data.recommendedSolutions?.primary?.id`. -/
def rawPrimaryId (data : JValue) : JValue :=
  jsGet (jsGet (jsGet data keyRecommendedSolutions) keyPrimary) keyId

def rawPrimaryReason (data : JValue) : JValue :=
  jsGet (jsGet (jsGet data keyRecommendedSolutions) keyPrimary) keyReason

def rawSecondaryId (data : JValue) : JValue :=
  jsGet (jsGet (jsGet data keyRecommendedSolutions) keySecondary) keyId

def rawSecondaryReason (data : JValue) : JValue :=
  jsGet (jsGet (jsGet data keyRecommendedSolutions) keySecondary) keyReason

/-- `raw || d` followed by the `validSolutionIds.includes` check that
overwrites any non-member with the same default `d` (the source uses the
same id for both the `||` default and the membership fix). -/
def enforceId (raw : JValue) (d : JStr) : JStr :=
  match jsOr raw (JValue.str d) with
  | JValue.str s => if s ∈ validSolutionIds then s else d
  | _ => d

/-- The `confidence` field: an in-range number is kept; otherwise a string
that `parseInt`s is clamped into `[0,100]`; otherwise the default 85. -/
def repairConfidence (cf : JValue) : ℚ :=
  match cf with
  | JValue.num n => if 0 ≤ n ∧ n ≤ 100 then n else 85
  | JValue.str s =>
    match jsParseInt s with
    | some k => max 0 (min 100 (k : ℚ))
    | none => 85
  | _ => 85

def validateAndRepairAnalysis (data : JValue) : AnalysisResult :=
  { businessType := repairNonemptyString (jsGet data keyBusinessType) defaultBusinessType
    detectedFocus := repairNonemptyString (jsGet data keyDetectedFocus) defaultDetectedFocus
    topProblems := repairTopProblems (jsGet data keyTopProblems)
    primary :=
      { id := enforceId (rawPrimaryId data) idWebsite
        reason := jsOr (rawPrimaryReason data) defaultPrimaryReason }
    secondary :=
      { id := enforceId (rawSecondaryId data) idWhatsapp
        reason := jsOr (rawSecondaryReason data) defaultSecondaryReason }
    confidence := repairConfidence (jsGet data keyConfidence)
    fallback := false }

def createFallbackAnalysis (reason : JStr) : AnalysisResult :=
  { businessType := defaultBusinessType
    detectedFocus := defaultDetectedFocus
    topProblems := [reason, fbProblem2, fbProblem3]
    primary := { id := idWebsite, reason := fbPrimaryReason }
    secondary := { id := idWhatsapp, reason := fbSecondaryReason }
    confidence := 75
    fallback := true }

/-- Schema validity of an analysis record: every required field present with
the expected type and domain (nonempty strings, nonempty problem list of
nonempty strings — the normalizer's own filter predicate — ids from the
allow-list, truthy reasons, confidence in `[0,100]`). -/
def ValidAnalysis (a : AnalysisResult) : Prop :=
  a.businessType ≠ [] ∧ a.detectedFocus ≠ [] ∧ a.topProblems ≠ [] ∧
  (∀ p ∈ a.topProblems, p ≠ []) ∧
  a.primary.id ∈ validSolutionIds ∧ jsTruthy a.primary.reason = true ∧
  a.secondary.id ∈ validSolutionIds ∧ jsTruthy a.secondary.reason = true ∧
  0 ≤ a.confidence ∧ a.confidence ≤ 100

/- Helper lemmas: the normalizer's output is always schema-valid. -/

theorem repairNonemptyString_ne (v : JValue) (d : JStr) (hd : d ≠ []) :
    repairNonemptyString v d ≠ [] := by
  cases v <;> simp [repairNonemptyString, hd]
  split <;> simp_all

theorem mem_filterProblems {xs : List JValue} {p : JStr}
    (h : p ∈ filterProblems xs) : p ≠ [] := by
  rw [filterProblems, List.mem_filterMap] at h
  obtain ⟨a, -, ha⟩ := h
  cases a with
  | str s =>
    have ha' : (if s ≠ [] then some s else none) = some p := ha
    by_cases hs : s = []
    · rw [if_neg (by simp [hs])] at ha'
      exact Option.noConfusion ha'
    · rw [if_pos hs] at ha'
      cases ha'
      exact hs
  | undef => exact Option.noConfusion ha
  | null => exact Option.noConfusion ha
  | bool b => exact Option.noConfusion ha
  | num q => exact Option.noConfusion ha
  | arr l => exact Option.noConfusion ha
  | obj l => exact Option.noConfusion ha

theorem repairTopProblems_ne (v : JValue) : repairTopProblems v ≠ [] := by
  rw [repairTopProblems]
  split
  · decide
  · rename_i h
    exact fun hn => h (by simp [hn])

theorem repairTopProblems_mem (v : JValue) :
    ∀ p ∈ repairTopProblems v, p ≠ [] := by
  intro p hp
  rw [repairTopProblems] at hp
  split at hp
  · simp at hp
    subst hp
    decide
  · rename_i hne
    clear hne
    cases v
    case arr xs =>
      have h1 : p ∈ (if 0 < xs.length then filterProblems xs else [defaultProblemUnable]) := hp
      by_cases hx : 0 < xs.length
      · rw [if_pos hx] at h1
        exact mem_filterProblems h1
      · rw [if_neg hx] at h1
        simp at h1
        subst h1
        decide
    all_goals
      have h1 : p ∈ [defaultProblemUnable] := hp
      simp at h1
      subst h1
      decide

theorem enforceId_mem (raw : JValue) (d : JStr) (hd : d ∈ validSolutionIds) :
    enforceId raw d ∈ validSolutionIds := by
  rw [enforceId]
  split
  · split <;> simp_all
  · exact hd

theorem jsOr_truthy (a b : JValue) (hb : jsTruthy b = true) :
    jsTruthy (jsOr a b) = true := by
  rw [jsOr]
  split <;> simp_all

theorem repairConfidence_nonneg (cf : JValue) : 0 ≤ repairConfidence cf := by
  cases cf <;> simp [repairConfidence] <;> try norm_num
  · split <;> [skip; norm_num]
    simp_all
  · split <;> [positivity; norm_num]

theorem repairConfidence_le (cf : JValue) : repairConfidence cf ≤ 100 := by
  cases cf <;> simp [repairConfidence] <;> try norm_num
  · split <;> [skip; norm_num]
    simp_all
  · split
    · rename_i k _
      have h1 : min 100 (k : ℚ) ≤ 100 := min_le_left _ _
      have h2 : (0 : ℚ) ≤ 100 := by norm_num
      exact max_le h2 h1
    · norm_num

theorem validateAndRepairAnalysis_valid (v : JValue) :
    ValidAnalysis (validateAndRepairAnalysis v) := by
  refine ⟨?_, ?_, ?_, ?_, ?_, ?_, ?_, ?_, ?_, ?_⟩
  · exact repairNonemptyString_ne _ _ (by decide)
  · exact repairNonemptyString_ne _ _ (by decide)
  · exact repairTopProblems_ne _
  · exact repairTopProblems_mem _
  · exact enforceId_mem _ _ (by decide)
  · exact jsOr_truthy _ _ (by decide)
  · exact enforceId_mem _ _ (by decide)
  · exact jsOr_truthy _ _ (by decide)
  · exact repairConfidence_nonneg _
  · exact repairConfidence_le _

theorem createFallbackAnalysis_valid (r : JStr) (hr : r ≠ []) :
    ValidAnalysis (createFallbackAnalysis r) := by
  refine ⟨(by decide : defaultBusinessType ≠ []),
    (by decide : defaultDetectedFocus ≠ []),
    List.cons_ne_nil r [fbProblem2, fbProblem3], ?_,
    (by decide : idWebsite ∈ validSolutionIds),
    (by decide : jsTruthy fbPrimaryReason = true),
    (by decide : idWhatsapp ∈ validSolutionIds),
    (by decide : jsTruthy fbSecondaryReason = true),
    (by norm_num : (0 : ℚ) ≤ 75), (by norm_num : (75 : ℚ) ≤ 100)⟩
  intro p hp
  simp [createFallbackAnalysis] at hp
  rcases hp with h | h | h <;> subst h
  · exact hr
  · decide
  · decide

instance instDecidableValidAnalysis (a : AnalysisResult) : Decidable (ValidAnalysis a) := by
  unfold ValidAnalysis
  infer_instance

theorem repairConfidence_str (s : JStr) :
    repairConfidence (JValue.str s) =
      (match jsParseInt s with
        | some k => max 0 (min 100 (k : ℚ))
        | none => (85 : ℚ)) := rfl

theorem enforceId_kept (s d : JStr) (hs : s ∈ validSolutionIds) :
    enforceId (JValue.str s) d = s := by
  have hne : s ≠ [] := by
    intro h
    subst h
    revert hs
    decide
  rw [enforceId, jsOr, if_pos (by simp [jsTruthy, hne])]
  show (if s ∈ validSolutionIds then s else d) = s
  rw [if_pos hs]

theorem enforceId_replaced (s d : JStr) (hs : s ∉ validSolutionIds) :
    enforceId (JValue.str s) d = d := by
  by_cases hne : s = []
  · subst hne
    rw [enforceId, jsOr, if_neg (by simp [jsTruthy])]
    show (if d ∈ validSolutionIds then d else d) = d
    exact ite_self d
  · rw [enforceId, jsOr, if_pos (by simp [jsTruthy, hne])]
    show (if s ∈ validSolutionIds then s else d) = d
    rw [if_neg hs]

/-- Claim C2, corrected. The claim asserted that a number-typed confidence of
150 clamps to 100 and -10 clamps to 0; in the code the `typeof === 'number'`
branch keeps only in-range numbers and everything else that is not a
parseable string falls through to the default 85, so 150 and -10 normalize
to 85. Clamping into [0,100] happens only for numeric strings, where
"87" → 87 (and "150" → 100, "-10" → 0). -/
theorem claim_C2_confidence_normalization :
    (∀ fs n, jsGet (JValue.obj fs) keyConfidence = JValue.num n → 0 ≤ n → n ≤ 100 →
      (validateAndRepairAnalysis (JValue.obj fs)).confidence = n) ∧
    (∀ fs n, jsGet (JValue.obj fs) keyConfidence = JValue.num n → ¬(0 ≤ n ∧ n ≤ 100) →
      (validateAndRepairAnalysis (JValue.obj fs)).confidence = 85) ∧
    (∀ fs s k, jsGet (JValue.obj fs) keyConfidence = JValue.str s → jsParseInt s = some k →
      (validateAndRepairAnalysis (JValue.obj fs)).confidence = max 0 (min 100 (k : ℚ))) ∧
    (∀ fs s, jsGet (JValue.obj fs) keyConfidence = JValue.str s → jsParseInt s = none →
      (validateAndRepairAnalysis (JValue.obj fs)).confidence = 85) ∧
    (validateAndRepairAnalysis (JValue.obj [(keyConfidence, JValue.num 150)])).confidence = 85 ∧
    (validateAndRepairAnalysis (JValue.obj [(keyConfidence, JValue.num (-10))])).confidence = 85 ∧
    (validateAndRepairAnalysis (JValue.obj [(keyConfidence, JValue.str ("87".toList))])).confidence = 87 ∧
    (validateAndRepairAnalysis (JValue.obj [(keyConfidence, JValue.str ("150".toList))])).confidence = 100 ∧
    (validateAndRepairAnalysis (JValue.obj [(keyConfidence, JValue.str ("-10".toList))])).confidence = 0 := by
  refine ⟨?_, ?_, ?_, ?_, by decide, by decide, by decide, by decide, by decide⟩
  · intro fs n h h0 h100
    show repairConfidence (jsGet (JValue.obj fs) keyConfidence) = n
    rw [h]
    show (if 0 ≤ n ∧ n ≤ 100 then n else 85) = n
    rw [if_pos ⟨h0, h100⟩]
  · intro fs n h hout
    show repairConfidence (jsGet (JValue.obj fs) keyConfidence) = 85
    rw [h]
    show (if 0 ≤ n ∧ n ≤ 100 then n else 85) = 85
    rw [if_neg hout]
  · intro fs s k h hk
    show repairConfidence (jsGet (JValue.obj fs) keyConfidence) = max 0 (min 100 (k : ℚ))
    rw [h, repairConfidence_str, hk]
  · intro fs s h hk
    show repairConfidence (jsGet (JValue.obj fs) keyConfidence) = 85
    rw [h, repairConfidence_str, hk]

/-- Concrete refutation of claim C2 as stated: a number-typed confidence of
150 normalizes to the default 85, not to the upper bound 100. -/
theorem claim_C2_counterexample :
    (validateAndRepairAnalysis (JValue.obj [(keyConfidence, JValue.num 150)])).confidence = 85 ∧
    ¬ (validateAndRepairAnalysis
        (JValue.obj [(keyConfidence, JValue.num 150)])).confidence = 100 := by
  decide

/-- Witness for (the general parts of) the corrected claim C2. -/
theorem claim_C2_witness :
    (validateAndRepairAnalysis (JValue.obj [(keyConfidence, JValue.num 90)])).confidence = 90 :=
  claim_C2_confidence_normalization.1 [(keyConfidence, JValue.num 90)] 90 rfl
    (by norm_num) (by norm_num)

/-- Claim C6, corrected. For every nonempty reason string `r`,
`createFallbackAnalysis r` is a fully-populated schema-valid record with
`fallback: true` and `r` verbatim as the first element of `topProblems`.
For the empty reason string the record embeds `""` as a problem entry,
which violates the schema's nonempty-string element domain (and is exactly
what the normalizer's own filter would strip), so the claim's universal
schema-validity fails at `r = ""`. -/
theorem claim_C6_fallbackGenerator (r : JStr) (hr : r ≠ []) :
    (createFallbackAnalysis r).fallback = true ∧
    (createFallbackAnalysis r).topProblems.head? = some r ∧
    ValidAnalysis (createFallbackAnalysis r) :=
  ⟨rfl, rfl, createFallbackAnalysis_valid r hr⟩

/-- Concrete refutation of claim C6 as stated: at the empty reason string the
generated record is not schema-valid (its first problem entry is `""`). -/
theorem claim_C6_counterexample :
    (createFallbackAnalysis []).fallback = true ∧
    (createFallbackAnalysis []).topProblems.head? = some [] ∧
    ¬ ValidAnalysis (createFallbackAnalysis []) := by
  decide

def reasonExample : JStr := "Transcription failed".toList

/-- Witness for the corrected claim C6 at a concrete nonempty reason. -/
theorem claim_C6_witness :
    (createFallbackAnalysis reasonExample).fallback = true ∧
    (createFallbackAnalysis reasonExample).topProblems.head? = some reasonExample ∧
    ValidAnalysis (createFallbackAnalysis reasonExample) :=
  claim_C6_fallbackGenerator reasonExample (by decide)

/-- Claim C7: the recommended-solution ids of the normalizer's output always
lie in the allow-list `{website, whatsapp, instagram}`; a string id that is a
member is kept verbatim, and a string id that is not a member (e.g.
`"tiktok"`) is replaced by the documented default — `website` for the
primary slot and `whatsapp` for the secondary slot. -/
theorem claim_C7_solutionId_allowlist (fs : List (JStr × JValue)) :
    (validateAndRepairAnalysis (JValue.obj fs)).primary.id ∈ validSolutionIds ∧
    (validateAndRepairAnalysis (JValue.obj fs)).secondary.id ∈ validSolutionIds ∧
    (∀ s, rawPrimaryId (JValue.obj fs) = JValue.str s → s ∈ validSolutionIds →
      (validateAndRepairAnalysis (JValue.obj fs)).primary.id = s) ∧
    (∀ s, rawPrimaryId (JValue.obj fs) = JValue.str s → s ∉ validSolutionIds →
      (validateAndRepairAnalysis (JValue.obj fs)).primary.id = idWebsite) ∧
    (∀ s, rawSecondaryId (JValue.obj fs) = JValue.str s → s ∈ validSolutionIds →
      (validateAndRepairAnalysis (JValue.obj fs)).secondary.id = s) ∧
    (∀ s, rawSecondaryId (JValue.obj fs) = JValue.str s → s ∉ validSolutionIds →
      (validateAndRepairAnalysis (JValue.obj fs)).secondary.id = idWhatsapp) := by
  refine ⟨enforceId_mem _ _ (by decide), enforceId_mem _ _ (by decide), ?_, ?_, ?_, ?_⟩
  · intro s h hs
    show enforceId (rawPrimaryId (JValue.obj fs)) idWebsite = s
    rw [h]
    exact enforceId_kept s idWebsite hs
  · intro s h hs
    show enforceId (rawPrimaryId (JValue.obj fs)) idWebsite = idWebsite
    rw [h]
    exact enforceId_replaced s idWebsite hs
  · intro s h hs
    show enforceId (rawSecondaryId (JValue.obj fs)) idWhatsapp = s
    rw [h]
    exact enforceId_kept s idWhatsapp hs
  · intro s h hs
    show enforceId (rawSecondaryId (JValue.obj fs)) idWhatsapp = idWhatsapp
    rw [h]
    exact enforceId_replaced s idWhatsapp hs

def idTiktok : JStr := "tiktok".toList

def exC7 : List (JStr × JValue) :=
  [(keyRecommendedSolutions, JValue.obj
    [(keyPrimary, JValue.obj [(keyId, JValue.str idTiktok)]),
     (keySecondary, JValue.obj [(keyId, JValue.str idInstagram)])])]

/-- Witness for claim C7: `"tiktok"` in the primary slot is replaced by
`website`; `instagram` in the secondary slot is kept verbatim. -/
theorem claim_C7_witness :
    (validateAndRepairAnalysis (JValue.obj exC7)).primary.id = idWebsite ∧
    (validateAndRepairAnalysis (JValue.obj exC7)).secondary.id = idInstagram :=
  ⟨(claim_C7_solutionId_allowlist exC7).2.2.2.1 idTiktok rfl (by decide),
   (claim_C7_solutionId_allowlist exC7).2.2.2.2.1 idInstagram rfl (by decide)⟩

/- Re-encoding a normalized analysis record as a JS object (the shape the
normalizer itself emits: no `fallback` key). -/
def encodeAnalysis (a : AnalysisResult) : JValue :=
  JValue.obj
    [(keyBusinessType, JValue.str a.businessType),
     (keyDetectedFocus, JValue.str a.detectedFocus),
     (keyTopProblems, JValue.arr (a.topProblems.map JValue.str)),
     (keyRecommendedSolutions, JValue.obj
       [(keyPrimary, JValue.obj
         [(keyId, JValue.str a.primary.id), (keyReason, a.primary.reason)]),
        (keySecondary, JValue.obj
         [(keyId, JValue.str a.secondary.id), (keyReason, a.secondary.reason)])]),
     (keyConfidence, JValue.num a.confidence)]

theorem keepProblem_str (p : JStr) (hp : p ≠ []) :
    keepProblem (JValue.str p) = some p := by
  show (if p ≠ [] then some p else none) = some p
  rw [if_pos hp]

theorem filterProblems_map_str (ps : List JStr) (h : ∀ p ∈ ps, p ≠ []) :
    filterProblems (ps.map JValue.str) = ps := by
  induction ps with
  | nil => rfl
  | cons p ps ih =>
    have ih2 := ih (fun q hq => h q (List.mem_cons_of_mem p hq))
    simp only [filterProblems] at ih2
    simp only [List.map_cons, filterProblems, List.filterMap_cons,
      keepProblem_str p (h p (List.mem_cons_self p ps)), ih2]

theorem validateAnalysis_idem (a : AnalysisResult) (hv : ValidAnalysis a)
    (hf : a.fallback = false) :
    validateAndRepairAnalysis (encodeAnalysis a) = a := by
  obtain ⟨h1, h2, h3, h4, h5, h6, h7, h8, h9, h10⟩ := hv
  have e3 : repairTopProblems (JValue.arr (a.topProblems.map JValue.str)) = a.topProblems := by
    have e30 : repairTopProblems0 (JValue.arr (a.topProblems.map JValue.str)) = a.topProblems := by
      show (if 0 < (a.topProblems.map JValue.str).length
          then filterProblems (a.topProblems.map JValue.str)
          else [defaultProblemUnable]) = a.topProblems
      rw [List.length_map, if_pos (List.length_pos.mpr h3), filterProblems_map_str a.topProblems h4]
    rw [repairTopProblems, e30, if_neg (fun hh => h3 (List.length_eq_zero.mp hh))]
  apply AnalysisResult.ext
  · show repairNonemptyString (JValue.str a.businessType) defaultBusinessType = a.businessType
    show (if a.businessType ≠ [] then a.businessType else defaultBusinessType) = a.businessType
    rw [if_pos h1]
  · show repairNonemptyString (JValue.str a.detectedFocus) defaultDetectedFocus = a.detectedFocus
    show (if a.detectedFocus ≠ [] then a.detectedFocus else defaultDetectedFocus) = a.detectedFocus
    rw [if_pos h2]
  · exact e3
  · apply Solution.ext
    · show enforceId (JValue.str a.primary.id) idWebsite = a.primary.id
      exact enforceId_kept _ _ h5
    · show jsOr a.primary.reason defaultPrimaryReason = a.primary.reason
      rw [jsOr, if_pos h6]
  · apply Solution.ext
    · show enforceId (JValue.str a.secondary.id) idWhatsapp = a.secondary.id
      exact enforceId_kept _ _ h7
    · show jsOr a.secondary.reason defaultSecondaryReason = a.secondary.reason
      rw [jsOr, if_pos h8]
  · show repairConfidence (JValue.num a.confidence) = a.confidence
    show (if 0 ≤ a.confidence ∧ a.confidence ≤ 100 then a.confidence else 85) = a.confidence
    rw [if_pos ⟨h9, h10⟩]
  · exact hf.symm

/- Keys and defaults of the quotation schema
(`validateQuotation` in the quotation controller). -/

def keyBasePrice : JStr := "basePrice".toList
def keyPriceRange : JStr := "priceRange".toList
def keyMin : JStr := "min".toList
def keyMax : JStr := "max".toList
def keyBreakdown : JStr := "breakdown".toList
def keyMaterials : JStr := "materials".toList
def keyLabor : JStr := "labor".toList
def keyArtisanSkill : JStr := "artisanSkill".toList
def keyProfit : JStr := "profit".toList
def keyCustomizationPricing : JStr := "customizationPricing".toList
def keyColorVariation : JStr := "colorVariation".toList
def keySizeIncrease : JStr := "sizeIncrease".toList
def keyPersonalEngraving : JStr := "personalEngraving".toList
def keyRushDelivery : JStr := "rushDelivery".toList
def keyMarketComparison : JStr := "marketComparison".toList
def keyBulkDiscounts : JStr := "bulkDiscounts".toList
def keyQuantity5 : JStr := "quantity5".toList
def keyQuantity10 : JStr := "quantity10".toList
def keyQuantity25 : JStr := "quantity25".toList
def keyNotes : JStr := "notes".toList
def keyFallback : JStr := "fallback".toList
def keyLocalMarket : JStr := "localMarket".toList
def keyOnlineMarket : JStr := "onlineMarket".toList
def keyPremiumJustification : JStr := "premiumJustification".toList

def defaultMarketComparison : JValue :=
  JValue.obj
    [(keyLocalMarket, JValue.str ("competitive pricing".toList)),
     (keyOnlineMarket, JValue.str ("fair for handmade quality".toList)),
     (keyPremiumJustification, JValue.str ("authentic craftsmanship".toList))]

def defaultNotes : JValue := JValue.str ("AI-generated pricing analysis".toList)

@[ext]
structure QuotationResult where
  basePrice : JNum
  priceMin : JNum
  priceMax : JNum
  materials : JNum
  labor : JNum
  artisanSkill : JNum
  profit : JNum
  colorVariation : JNum
  sizeIncrease : JNum
  personalEngraving : JNum
  rushDelivery : JNum
  marketComparison : JValue
  quantity5 : JNum
  quantity10 : JNum
  quantity25 : JNum
  confidence : JNum
  notes : JValue
  fallback : JValue

/-- `Number(v.k) || d`. -/
def qNum (v : JValue) (k : JStr) (d : ℚ) : JNum := numOr (jsToNumber (jsGet v k)) d

/-- The `min >= max` reset check is `jnLe max min` on the sanitized pair. -/
def validateQuotation (q : JValue) : QuotationResult :=
  { basePrice := jnMax (JNum.fin 50) (jnMin (JNum.fin 50000) (qNum q keyBasePrice 500))
    priceMin := jnMax (JNum.fin 50) (qNum (jsGet q keyPriceRange) keyMin 400)
    priceMax :=
      if jnLe (jnMin (JNum.fin 50000) (qNum (jsGet q keyPriceRange) keyMax 1500))
          (jnMax (JNum.fin 50) (qNum (jsGet q keyPriceRange) keyMin 400))
      then jnMulThreeHalves (jnMax (JNum.fin 50) (qNum (jsGet q keyPriceRange) keyMin 400))
      else jnMin (JNum.fin 50000) (qNum (jsGet q keyPriceRange) keyMax 1500)
    materials := jnMax (JNum.fin 0) (qNum (jsGet q keyBreakdown) keyMaterials 0)
    labor := jnMax (JNum.fin 0) (qNum (jsGet q keyBreakdown) keyLabor 0)
    artisanSkill := jnMax (JNum.fin 0) (qNum (jsGet q keyBreakdown) keyArtisanSkill 0)
    profit := jnMax (JNum.fin 0) (qNum (jsGet q keyBreakdown) keyProfit 0)
    colorVariation := qNum (jsGet q keyCustomizationPricing) keyColorVariation 50
    sizeIncrease := qNum (jsGet q keyCustomizationPricing) keySizeIncrease 100
    personalEngraving := qNum (jsGet q keyCustomizationPricing) keyPersonalEngraving 150
    rushDelivery := qNum (jsGet q keyCustomizationPricing) keyRushDelivery 200
    marketComparison := jsOr (jsGet q keyMarketComparison) defaultMarketComparison
    quantity5 := jnMax (JNum.fin 0) (jnMin (JNum.fin 50) (qNum (jsGet q keyBulkDiscounts) keyQuantity5 10))
    quantity10 := jnMax (JNum.fin 0) (jnMin (JNum.fin 50) (qNum (jsGet q keyBulkDiscounts) keyQuantity10 15))
    quantity25 := jnMax (JNum.fin 0) (jnMin (JNum.fin 50) (qNum (jsGet q keyBulkDiscounts) keyQuantity25 25))
    confidence := jnMax (JNum.fin 50) (jnMin (JNum.fin 100) (qNum q keyConfidence 80))
    notes := jsOr (jsGet q keyNotes) defaultNotes
    fallback := jsOr (jsGet q keyFallback) (JValue.bool false) }

def isBoolJ : JValue → Bool
  | JValue.bool _ => true
  | _ => false

/-- A finite value inside the IEEE double range — what a JS number field of
a schema-valid object can actually hold (JS numbers never exceed the double
range; the infinities are outside every sanitizer's target domain). -/
def jnRepresentable : JNum → Bool
  | JNum.fin q => decide (q < ieeeMaxBound ∧ -ieeeMaxBound < q)
  | _ => false

/-- Validity of a quotation record: every numeric field a finite
representable double inside the domain the sanitizer enforces (and nonzero
where a zero would be replaced by a truthy `||` default — the two-sided
`jnLe` bounds force finiteness on their own), truthy object-valued fields,
and a boolean `fallback`. -/
def ValidQuotation (q : QuotationResult) : Prop :=
  jnLe (JNum.fin 50) q.basePrice = true ∧ jnLe q.basePrice (JNum.fin 50000) = true ∧
  jnLe (JNum.fin 50) q.priceMin = true ∧ jnLt q.priceMin q.priceMax = true ∧
  jnLe q.priceMax (JNum.fin 50000) = true ∧
  jnLe (JNum.fin 0) q.materials = true ∧ jnRepresentable q.materials = true ∧
  jnLe (JNum.fin 0) q.labor = true ∧ jnRepresentable q.labor = true ∧
  jnLe (JNum.fin 0) q.artisanSkill = true ∧ jnRepresentable q.artisanSkill = true ∧
  jnLe (JNum.fin 0) q.profit = true ∧ jnRepresentable q.profit = true ∧
  jnRepresentable q.colorVariation = true ∧ q.colorVariation ≠ JNum.fin 0 ∧
  jnRepresentable q.sizeIncrease = true ∧ q.sizeIncrease ≠ JNum.fin 0 ∧
  jnRepresentable q.personalEngraving = true ∧ q.personalEngraving ≠ JNum.fin 0 ∧
  jnRepresentable q.rushDelivery = true ∧ q.rushDelivery ≠ JNum.fin 0 ∧
  jsTruthy q.marketComparison = true ∧
  jnLt (JNum.fin 0) q.quantity5 = true ∧ jnLe q.quantity5 (JNum.fin 50) = true ∧
  jnLt (JNum.fin 0) q.quantity10 = true ∧ jnLe q.quantity10 (JNum.fin 50) = true ∧
  jnLt (JNum.fin 0) q.quantity25 = true ∧ jnLe q.quantity25 (JNum.fin 50) = true ∧
  jnLe (JNum.fin 50) q.confidence = true ∧ jnLe q.confidence (JNum.fin 100) = true ∧
  jsTruthy q.notes = true ∧ isBoolJ q.fallback = true

instance instDecidableValidQuotation (q : QuotationResult) : Decidable (ValidQuotation q) := by
  unfold ValidQuotation
  infer_instance

/-- Re-encode a sanitized number as a JSON value (JSON itself cannot carry
the infinities — `JSON.stringify` writes them as `null` — and
`ValidQuotation` keeps them out of the idempotence domain anyway). -/
def jnEncode : JNum → JValue
  | JNum.fin q => JValue.num q
  | JNum.posInf => JValue.null
  | JNum.negInf => JValue.null

def encodeQuotation (q : QuotationResult) : JValue :=
  JValue.obj
    [(keyBasePrice, jnEncode q.basePrice),
     (keyPriceRange, JValue.obj
       [(keyMin, jnEncode q.priceMin), (keyMax, jnEncode q.priceMax)]),
     (keyBreakdown, JValue.obj
       [(keyMaterials, jnEncode q.materials), (keyLabor, jnEncode q.labor),
        (keyArtisanSkill, jnEncode q.artisanSkill), (keyProfit, jnEncode q.profit)]),
     (keyCustomizationPricing, JValue.obj
       [(keyColorVariation, jnEncode q.colorVariation),
        (keySizeIncrease, jnEncode q.sizeIncrease),
        (keyPersonalEngraving, jnEncode q.personalEngraving),
        (keyRushDelivery, jnEncode q.rushDelivery)]),
     (keyMarketComparison, q.marketComparison),
     (keyBulkDiscounts, JValue.obj
       [(keyQuantity5, jnEncode q.quantity5), (keyQuantity10, jnEncode q.quantity10),
        (keyQuantity25, jnEncode q.quantity25)]),
     (keyConfidence, jnEncode q.confidence),
     (keyNotes, q.notes),
     (keyFallback, q.fallback)]

theorem numOr_fin_ne (x d : ℚ) (hx : x ≠ 0) :
    numOr (some (JNum.fin x)) d = JNum.fin x := by
  show (if x = 0 then JNum.fin d else JNum.fin x) = JNum.fin x
  rw [if_neg hx]

theorem numOr_fin_zero (x : ℚ) : numOr (some (JNum.fin x)) 0 = JNum.fin x := by
  show (if x = 0 then JNum.fin 0 else JNum.fin x) = JNum.fin x
  split
  · simp_all
  · rfl

/-- The overflow threshold dwarfs every constant in the quotation schema. -/
theorem ieee_big : (100000 : ℚ) < ieeeMaxBound := by
  rw [ieeeMaxBound]
  have hn : (100000 : ℕ) < 2 ^ 1024 - 2 ^ 970 := by
    have h1 : (2 : ℕ) ^ 971 ≤ 2 ^ 1024 := Nat.pow_le_pow_right (by norm_num) (by norm_num)
    have h2 : (2 : ℕ) ^ 971 = 2 * 2 ^ 970 := by
      rw [show (971 : ℕ) = 970 + 1 from rfl, Nat.pow_succ, Nat.mul_comm]
    have h3 : (2 : ℕ) ^ 17 ≤ 2 ^ 970 := Nat.pow_le_pow_right (by norm_num) (by norm_num)
    have h4 : (100000 : ℕ) < 2 ^ 17 := by norm_num
    omega
  exact_mod_cast hn

theorem jnOfRat_fin (x : ℚ) (h1 : x < ieeeMaxBound) (h2 : -ieeeMaxBound < x) :
    jnOfRat x = JNum.fin x := by
  rw [jnOfRat, if_neg (not_le.mpr h1), if_neg (not_le.mpr h2)]

theorem jn_bounded_fin {n : JNum} {a b : ℚ} (h1 : jnLe (JNum.fin a) n = true)
    (h2 : jnLe n (JNum.fin b) = true) : ∃ x, n = JNum.fin x ∧ a ≤ x ∧ x ≤ b := by
  cases n with
  | fin x => exact ⟨x, rfl, of_decide_eq_true h1, of_decide_eq_true h2⟩
  | posInf => exact Bool.noConfusion h2
  | negInf => exact Bool.noConfusion h1

theorem jn_bounded_fin_lt {n : JNum} {a b : ℚ} (h1 : jnLt (JNum.fin a) n = true)
    (h2 : jnLe n (JNum.fin b) = true) : ∃ x, n = JNum.fin x ∧ a < x ∧ x ≤ b := by
  cases n with
  | fin x => exact ⟨x, rfl, of_decide_eq_true h1, of_decide_eq_true h2⟩
  | posInf => exact Bool.noConfusion h2
  | negInf => exact Bool.noConfusion h1

theorem jn_range_fin {n m : JNum} {a b : ℚ} (h1 : jnLe (JNum.fin a) n = true)
    (h2 : jnLt n m = true) (h3 : jnLe m (JNum.fin b) = true) :
    ∃ x y, n = JNum.fin x ∧ m = JNum.fin y ∧ a ≤ x ∧ x < y ∧ y ≤ b := by
  cases n with
  | posInf => cases m <;> exact Bool.noConfusion h2
  | negInf => exact Bool.noConfusion h1
  | fin x =>
    cases m with
    | posInf => exact Bool.noConfusion h3
    | negInf => exact Bool.noConfusion h2
    | fin y =>
      exact ⟨x, y, rfl, rfl, of_decide_eq_true h1, of_decide_eq_true h2, of_decide_eq_true h3⟩

theorem jnRepresentable_fin {n : JNum} (h : jnRepresentable n = true) :
    ∃ x, n = JNum.fin x ∧ x < ieeeMaxBound ∧ -ieeeMaxBound < x := by
  cases n with
  | fin x =>
    have hx : x < ieeeMaxBound ∧ -ieeeMaxBound < x := of_decide_eq_true h
    exact ⟨x, rfl, hx.1, hx.2⟩
  | posInf => exact Bool.noConfusion h
  | negInf => exact Bool.noConfusion h

theorem jsOr_of_truthy (v b : JValue) (h : jsTruthy v = true) : jsOr v b = v := by
  rw [jsOr, if_pos h]

theorem jsOr_bool_false (v : JValue) (h : isBoolJ v = true) :
    jsOr v (JValue.bool false) = v := by
  cases v with
  | bool b =>
    cases b with
    | false => rw [jsOr, if_neg (by decide)]
    | true => rw [jsOr, if_pos (by decide)]
  | undef => exact Bool.noConfusion h
  | null => exact Bool.noConfusion h
  | num x => exact Bool.noConfusion h
  | str s => exact Bool.noConfusion h
  | arr l => exact Bool.noConfusion h
  | obj l => exact Bool.noConfusion h

theorem validateQuotation_idem (q : QuotationResult) (hv : ValidQuotation q) :
    validateQuotation (encodeQuotation q) = q := by
  obtain ⟨bp, mn, mx, ma, la, ars, pf, cv, si, pe, rd, mc, q5, q10, q25, cf, nt, fb⟩ := q
  obtain ⟨hb1, hb2, hm1, hlt0, hx2, hma1, hma2, hla1, hla2, has1, has2, hpr1, hpr2,
    hcv1, hcv2, hsi1, hsi2, hpe1, hpe2, hrd1, hrd2, hmc,
    hq5a, hq5b, hq10a, hq10b, hq25a, hq25b, hc1, hc2, hn, hfb⟩ := hv
  obtain ⟨bpv, rfl, hb1v, hb2v⟩ := jn_bounded_fin hb1 hb2
  obtain ⟨mnv, mxv, rfl, rfl, hmn1, hmnmx, hmx2⟩ := jn_range_fin hm1 hlt0 hx2
  obtain ⟨mav, rfl, hmaB1, hmaB2⟩ := jnRepresentable_fin hma2
  have hma0 : (0 : ℚ) ≤ mav := of_decide_eq_true hma1
  obtain ⟨lav, rfl, hlaB1, hlaB2⟩ := jnRepresentable_fin hla2
  have hla0 : (0 : ℚ) ≤ lav := of_decide_eq_true hla1
  obtain ⟨arsv, rfl, hasB1, hasB2⟩ := jnRepresentable_fin has2
  have has0 : (0 : ℚ) ≤ arsv := of_decide_eq_true has1
  obtain ⟨pfv, rfl, hprB1, hprB2⟩ := jnRepresentable_fin hpr2
  have hpr0 : (0 : ℚ) ≤ pfv := of_decide_eq_true hpr1
  obtain ⟨cvv, rfl, hcvB1, hcvB2⟩ := jnRepresentable_fin hcv1
  have hcvne : cvv ≠ 0 := fun h => hcv2 (by rw [h])
  obtain ⟨siv, rfl, hsiB1, hsiB2⟩ := jnRepresentable_fin hsi1
  have hsine : siv ≠ 0 := fun h => hsi2 (by rw [h])
  obtain ⟨pev, rfl, hpeB1, hpeB2⟩ := jnRepresentable_fin hpe1
  have hpene : pev ≠ 0 := fun h => hpe2 (by rw [h])
  obtain ⟨rdv, rfl, hrdB1, hrdB2⟩ := jnRepresentable_fin hrd1
  have hrdne : rdv ≠ 0 := fun h => hrd2 (by rw [h])
  obtain ⟨q5v, rfl, hq5l, hq5u⟩ := jn_bounded_fin_lt hq5a hq5b
  obtain ⟨q10v, rfl, hq10l, hq10u⟩ := jn_bounded_fin_lt hq10a hq10b
  obtain ⟨q25v, rfl, hq25l, hq25u⟩ := jn_bounded_fin_lt hq25a hq25b
  obtain ⟨cfv, rfl, hcfl, hcfu⟩ := jn_bounded_fin hc1 hc2
  have hBig := ieee_big
  have hcond : ¬(jnLe (JNum.fin mxv) (JNum.fin mnv) = true) := by
    show ¬(decide (mxv ≤ mnv) = true)
    simp only [decide_eq_true_eq]
    exact not_le.mpr hmnmx
  apply QuotationResult.ext
  · show jnMax (JNum.fin 50) (jnMin (JNum.fin 50000) (numOr (some (jnOfRat bpv)) 500)) =
      JNum.fin bpv
    rw [jnOfRat_fin bpv (by linarith) (by linarith),
      numOr_fin_ne bpv 500 (ne_of_gt (by linarith)),
      show jnMin (JNum.fin 50000) (JNum.fin bpv) = JNum.fin (min 50000 bpv) from rfl,
      min_eq_right hb2v,
      show jnMax (JNum.fin 50) (JNum.fin bpv) = JNum.fin (max 50 bpv) from rfl,
      max_eq_right hb1v]
  · show jnMax (JNum.fin 50) (numOr (some (jnOfRat mnv)) 400) = JNum.fin mnv
    rw [jnOfRat_fin mnv (by linarith) (by linarith),
      numOr_fin_ne mnv 400 (ne_of_gt (by linarith)),
      show jnMax (JNum.fin 50) (JNum.fin mnv) = JNum.fin (max 50 mnv) from rfl,
      max_eq_right hmn1]
  · show (if jnLe (jnMin (JNum.fin 50000) (numOr (some (jnOfRat mxv)) 1500))
        (jnMax (JNum.fin 50) (numOr (some (jnOfRat mnv)) 400))
      then jnMulThreeHalves (jnMax (JNum.fin 50) (numOr (some (jnOfRat mnv)) 400))
      else jnMin (JNum.fin 50000) (numOr (some (jnOfRat mxv)) 1500)) = JNum.fin mxv
    rw [jnOfRat_fin mnv (by linarith) (by linarith), jnOfRat_fin mxv (by linarith) (by linarith),
      numOr_fin_ne mnv 400 (ne_of_gt (by linarith)),
      numOr_fin_ne mxv 1500 (ne_of_gt (by linarith)),
      show jnMax (JNum.fin 50) (JNum.fin mnv) = JNum.fin (max 50 mnv) from rfl,
      max_eq_right hmn1,
      show jnMin (JNum.fin 50000) (JNum.fin mxv) = JNum.fin (min 50000 mxv) from rfl,
      min_eq_right hmx2, if_neg hcond]
  · show jnMax (JNum.fin 0) (numOr (some (jnOfRat mav)) 0) = JNum.fin mav
    rw [jnOfRat_fin mav hmaB1 hmaB2, numOr_fin_zero,
      show jnMax (JNum.fin 0) (JNum.fin mav) = JNum.fin (max 0 mav) from rfl,
      max_eq_right hma0]
  · show jnMax (JNum.fin 0) (numOr (some (jnOfRat lav)) 0) = JNum.fin lav
    rw [jnOfRat_fin lav hlaB1 hlaB2, numOr_fin_zero,
      show jnMax (JNum.fin 0) (JNum.fin lav) = JNum.fin (max 0 lav) from rfl,
      max_eq_right hla0]
  · show jnMax (JNum.fin 0) (numOr (some (jnOfRat arsv)) 0) = JNum.fin arsv
    rw [jnOfRat_fin arsv hasB1 hasB2, numOr_fin_zero,
      show jnMax (JNum.fin 0) (JNum.fin arsv) = JNum.fin (max 0 arsv) from rfl,
      max_eq_right has0]
  · show jnMax (JNum.fin 0) (numOr (some (jnOfRat pfv)) 0) = JNum.fin pfv
    rw [jnOfRat_fin pfv hprB1 hprB2, numOr_fin_zero,
      show jnMax (JNum.fin 0) (JNum.fin pfv) = JNum.fin (max 0 pfv) from rfl,
      max_eq_right hpr0]
  · show numOr (some (jnOfRat cvv)) 50 = JNum.fin cvv
    rw [jnOfRat_fin cvv hcvB1 hcvB2]
    exact numOr_fin_ne cvv 50 hcvne
  · show numOr (some (jnOfRat siv)) 100 = JNum.fin siv
    rw [jnOfRat_fin siv hsiB1 hsiB2]
    exact numOr_fin_ne siv 100 hsine
  · show numOr (some (jnOfRat pev)) 150 = JNum.fin pev
    rw [jnOfRat_fin pev hpeB1 hpeB2]
    exact numOr_fin_ne pev 150 hpene
  · show numOr (some (jnOfRat rdv)) 200 = JNum.fin rdv
    rw [jnOfRat_fin rdv hrdB1 hrdB2]
    exact numOr_fin_ne rdv 200 hrdne
  · show jsOr mc defaultMarketComparison = mc
    exact jsOr_of_truthy _ _ hmc
  · show jnMax (JNum.fin 0) (jnMin (JNum.fin 50) (numOr (some (jnOfRat q5v)) 10)) =
      JNum.fin q5v
    rw [jnOfRat_fin q5v (by linarith) (by linarith),
      numOr_fin_ne q5v 10 (ne_of_gt hq5l),
      show jnMin (JNum.fin 50) (JNum.fin q5v) = JNum.fin (min 50 q5v) from rfl,
      min_eq_right hq5u,
      show jnMax (JNum.fin 0) (JNum.fin q5v) = JNum.fin (max 0 q5v) from rfl,
      max_eq_right (le_of_lt hq5l)]
  · show jnMax (JNum.fin 0) (jnMin (JNum.fin 50) (numOr (some (jnOfRat q10v)) 15)) =
      JNum.fin q10v
    rw [jnOfRat_fin q10v (by linarith) (by linarith),
      numOr_fin_ne q10v 15 (ne_of_gt hq10l),
      show jnMin (JNum.fin 50) (JNum.fin q10v) = JNum.fin (min 50 q10v) from rfl,
      min_eq_right hq10u,
      show jnMax (JNum.fin 0) (JNum.fin q10v) = JNum.fin (max 0 q10v) from rfl,
      max_eq_right (le_of_lt hq10l)]
  · show jnMax (JNum.fin 0) (jnMin (JNum.fin 50) (numOr (some (jnOfRat q25v)) 25)) =
      JNum.fin q25v
    rw [jnOfRat_fin q25v (by linarith) (by linarith),
      numOr_fin_ne q25v 25 (ne_of_gt hq25l),
      show jnMin (JNum.fin 50) (JNum.fin q25v) = JNum.fin (min 50 q25v) from rfl,
      min_eq_right hq25u,
      show jnMax (JNum.fin 0) (JNum.fin q25v) = JNum.fin (max 0 q25v) from rfl,
      max_eq_right (le_of_lt hq25l)]
  · show jnMax (JNum.fin 50) (jnMin (JNum.fin 100) (numOr (some (jnOfRat cfv)) 80)) =
      JNum.fin cfv
    rw [jnOfRat_fin cfv (by linarith) (by linarith),
      numOr_fin_ne cfv 80 (ne_of_gt (by linarith)),
      show jnMin (JNum.fin 100) (JNum.fin cfv) = JNum.fin (min 100 cfv) from rfl,
      min_eq_right hcfu,
      show jnMax (JNum.fin 50) (JNum.fin cfv) = JNum.fin (max 50 cfv) from rfl,
      max_eq_right hcfl]
  · show jsOr nt defaultNotes = nt
    exact jsOr_of_truthy _ _ hn
  · show jsOr fb (JValue.bool false) = fb
    exact jsOr_bool_false _ hfb

/-- Claim C5: normalization is idempotent on valid inputs — an
already-schema-valid analysis object (re-encoded as the JS object the
normalizer itself would emit, which carries no `fallback` key) comes back
from `validateAndRepairAnalysis` unchanged, and an already-valid quotation
comes back from `validateQuotation` unchanged. -/
theorem claim_C5_normalization_idempotent :
    (∀ a : AnalysisResult, ValidAnalysis a → a.fallback = false →
      validateAndRepairAnalysis (encodeAnalysis a) = a) ∧
    (∀ q : QuotationResult, ValidQuotation q →
      validateQuotation (encodeQuotation q) = q) :=
  ⟨validateAnalysis_idem, validateQuotation_idem⟩

def exAnalysis : AnalysisResult :=
  { businessType := "Pottery".toList
    detectedFocus := "Handmade pots".toList
    topProblems := ["Low online visibility".toList]
    primary := { id := idWebsite, reason := JValue.str ("Showcase products".toList) }
    secondary := { id := idInstagram, reason := JValue.str ("Visual marketing".toList) }
    confidence := 90
    fallback := false }

def exQuotation : QuotationResult :=
  { basePrice := JNum.fin 800
    priceMin := JNum.fin 600
    priceMax := JNum.fin 1200
    materials := JNum.fin 200
    labor := JNum.fin 300
    artisanSkill := JNum.fin 150
    profit := JNum.fin 150
    colorVariation := JNum.fin 50
    sizeIncrease := JNum.fin 100
    personalEngraving := JNum.fin 150
    rushDelivery := JNum.fin 200
    marketComparison := defaultMarketComparison
    quantity5 := JNum.fin 8
    quantity10 := JNum.fin 15
    quantity25 := JNum.fin 22
    confidence := JNum.fin 82
    notes := defaultNotes
    fallback := JValue.bool false }

/-- Witness for claim C5 at concrete valid records. -/
theorem claim_C5_witness :
    validateAndRepairAnalysis (encodeAnalysis exAnalysis) = exAnalysis ∧
    validateQuotation (encodeQuotation exQuotation) = exQuotation :=
  ⟨claim_C5_normalization_idempotent.1 exAnalysis (by decide) rfl,
   claim_C5_normalization_idempotent.2 exQuotation (by decide)⟩

theorem validateQuotation_priceMin (q : JValue) :
    (validateQuotation q).priceMin =
      jnMax (JNum.fin 50) (qNum (jsGet q keyPriceRange) keyMin 400) := rfl

theorem validateQuotation_priceMax (q : JValue) :
    (validateQuotation q).priceMax =
      if jnLe (jnMin (JNum.fin 50000) (qNum (jsGet q keyPriceRange) keyMax 1500))
          (jnMax (JNum.fin 50) (qNum (jsGet q keyPriceRange) keyMin 400))
      then jnMulThreeHalves (jnMax (JNum.fin 50) (qNum (jsGet q keyPriceRange) keyMin 400))
      else jnMin (JNum.fin 50000) (qNum (jsGet q keyPriceRange) keyMax 1500) := rfl

theorem jnLe_fin_jnMax (a : ℚ) (n : JNum) :
    jnLe (JNum.fin a) (jnMax (JNum.fin a) n) = true := by
  cases n with
  | posInf => rfl
  | negInf =>
    show decide (a ≤ a) = true
    exact decide_eq_true (le_refl a)
  | fin b =>
    show decide (a ≤ max a b) = true
    exact decide_eq_true (le_max_left a b)

theorem jnLe_jnMin_fin (a : ℚ) (n : JNum) :
    jnLe (jnMin (JNum.fin a) n) (JNum.fin a) = true := by
  cases n with
  | negInf => rfl
  | posInf =>
    show decide (a ≤ a) = true
    exact decide_eq_true (le_refl a)
  | fin b =>
    show decide (min a b ≤ a) = true
    exact decide_eq_true (min_le_left a b)

theorem jnMax_fin_cases (a : ℚ) (n : JNum) :
    jnMax (JNum.fin a) n = JNum.posInf ∨
      ∃ m, jnMax (JNum.fin a) n = JNum.fin m ∧ a ≤ m := by
  cases n with
  | posInf => exact Or.inl rfl
  | negInf => exact Or.inr ⟨a, rfl, le_refl a⟩
  | fin b => exact Or.inr ⟨max a b, rfl, le_max_left a b⟩

/-- The non-`NaN` doubles are totally ordered: a failed `<=` flips to a
strict `<` the other way. -/
theorem jnLt_of_not_jnLe {m n : JNum} (h : jnLe m n = false) : jnLt n m = true := by
  cases m with
  | fin a =>
    cases n with
    | fin b => exact decide_eq_true (not_le.mp (of_decide_eq_false h))
    | posInf => exact Bool.noConfusion h
    | negInf => rfl
  | posInf =>
    cases n with
    | fin b => rfl
    | posInf => exact Bool.noConfusion h
    | negInf => rfl
  | negInf => cases n <;> exact Bool.noConfusion h

/-- Claim C10, corrected. As stated — "for every input object the sanitized
quotation satisfies `priceRange.min < priceRange.max`" — the claim fails: a
`priceRange.min` that coerces to IEEE `Infinity` (the string "Infinity", or
a numeric literal beyond the double range, which `JSON.parse` reads as
`Infinity`) passes `Math.max(50, ·)` unchanged, makes `min >= max` true, and
the reset `max = min * 1.5 = Infinity` leaves `min = max = Infinity`, where
`min < max` is false (see the counterexample). What does hold: `min` is
always at least 50; whenever `min` is not `+Infinity` the returned range
satisfies `min < max`; and `max` is either capped at 50000 or equals
`min * 1.5`. -/
theorem claim_C10_priceRange_invariant (fs : List (JStr × JValue)) :
    jnLe (JNum.fin 50) (validateQuotation (JValue.obj fs)).priceMin = true ∧
    ((validateQuotation (JValue.obj fs)).priceMin ≠ JNum.posInf →
      jnLt (validateQuotation (JValue.obj fs)).priceMin
        (validateQuotation (JValue.obj fs)).priceMax = true) ∧
    (jnLe (validateQuotation (JValue.obj fs)).priceMax (JNum.fin 50000) = true ∨
      (validateQuotation (JValue.obj fs)).priceMax =
        jnMulThreeHalves (validateQuotation (JValue.obj fs)).priceMin) := by
  simp only [validateQuotation_priceMin, validateQuotation_priceMax]
  set A := qNum (jsGet (JValue.obj fs) keyPriceRange) keyMin 400
  set B := qNum (jsGet (JValue.obj fs) keyPriceRange) keyMax 1500
  refine ⟨jnLe_fin_jnMax 50 A, ?_, ?_⟩
  · intro hne
    rcases jnMax_fin_cases 50 A with h | ⟨m, hm, h50⟩
    · exact absurd h hne
    · rw [hm]
      by_cases hc : jnLe (jnMin (JNum.fin 50000) B) (JNum.fin m) = true
      · rw [if_pos hc]
        show jnLt (JNum.fin m) (JNum.fin (m * (3 / 2))) = true
        exact decide_eq_true (by linarith)
      · have hcf : jnLe (jnMin (JNum.fin 50000) B) (JNum.fin m) = false := by
          revert hc
          cases jnLe (jnMin (JNum.fin 50000) B) (JNum.fin m) <;> simp
        rw [if_neg hc]
        exact jnLt_of_not_jnLe hcf
  · by_cases hc : jnLe (jnMin (JNum.fin 50000) B) (jnMax (JNum.fin 50) A) = true
    · right
      rw [if_pos hc]
    · left
      rw [if_neg hc]
      exact jnLe_jnMin_fin 50000 B

def qInfEx : JValue :=
  JValue.obj [(keyPriceRange, JValue.obj
    [(keyMin, JValue.str strInfinity), (keyMax, JValue.num 100)])]

/-- Concrete refutation of claim C10 as stated: with `priceRange.min` the
string "Infinity" (so `Number(min) || 400` is `Infinity`) and
`priceRange.max = 100`, the returned range has `min = max = Infinity` and
`min < max` fails. -/
theorem claim_C10_counterexample :
    (validateQuotation qInfEx).priceMin = JNum.posInf ∧
    (validateQuotation qInfEx).priceMax = JNum.posInf ∧
    jnLt (validateQuotation qInfEx).priceMin (validateQuotation qInfEx).priceMax = false := by
  decide

def exC10 : List (JStr × JValue) :=
  [(keyPriceRange, JValue.obj [(keyMin, JValue.num 600), (keyMax, JValue.num 100)])]

/-- Witness for the corrected claim C10: a finite min of 600 against a max
of 100 trips the inverted-range reset and the result satisfies min < max. -/
theorem claim_C10_witness :
    jnLt (validateQuotation (JValue.obj exC10)).priceMin
      (validateQuotation (JValue.obj exC10)).priceMax = true :=
  (claim_C10_priceRange_invariant exC10).2.1 (by decide)

/- The extraction front half of `parseAIResponse`: markdown-fence stripping
via the regex `/```(?:json)?\s*([\s\S]*?)\s*```/` and brace-boundary search
via `indexOf('{')` / `lastIndexOf('}')`. -/

/-- JS `String.prototype.indexOf` for a single character (-1 when absent). -/
def jsIndexOf (s : JStr) (c : Char) : Int :=
  match s with
  | [] => -1
  | a :: rest =>
    if a = c then 0
    else if jsIndexOf rest c = -1 then -1 else jsIndexOf rest c + 1

/-- JS `String.prototype.lastIndexOf` for a single character (-1 when absent). -/
def jsLastIndexOf (s : JStr) (c : Char) : Int :=
  match s with
  | [] => -1
  | a :: rest =>
    if jsLastIndexOf rest c = -1 then (if a = c then 0 else -1)
    else jsLastIndexOf rest c + 1

def btick : Char := Char.ofNat 96

def jsonTag : JStr := "json".toList

def dropWS (l : JStr) : JStr := l.dropWhile isWSChar

def rstripWS (l : JStr) : JStr := (l.reverse.dropWhile isWSChar).reverse

/-- Split at the first occurrence of a triple-backtick fence: returns the
text before the fence and the text after it. -/
def splitAtTicks : JStr → Option (JStr × JStr)
  | [] => none
  | c :: rest =>
    if c = btick ∧ rest.take 2 = [btick, btick] then some ([], rest.drop 2)
    else (splitAtTicks rest).map (fun p => (c :: p.1, p.2))

/-- First match of `/```(?:json)?\s*([\s\S]*?)\s*```/`, returning the
captured group: after an opening fence, an optional `json` tag and greedy
whitespace are consumed; the lazy group then ends at the next fence with
its trailing whitespace stripped. If no closing fence follows a candidate
opening, the scan resumes one character later, as the regex engine does. -/
def fenceSearch : JStr → Option JStr
  | [] => none
  | c :: rest =>
    if c = btick ∧ rest.take 2 = [btick, btick] then
      match splitAtTicks (dropWS
          (if (rest.drop 2).take 4 = jsonTag then (rest.drop 2).drop 4 else rest.drop 2)) with
      | some p => some (rstripWS p.1)
      | none => fenceSearch rest
    else fenceSearch rest

/-- `codeBlockMatch ? codeBlockMatch[1] : rawText`. -/
def stripFence (raw : JStr) : JStr :=
  match fenceSearch raw with
  | some g => g
  | none => raw

/-- Brace-boundary extraction: fails when either brace is absent or the
first `{` is not strictly before the last `}`; otherwise the inclusive
substring between them. -/
def extract (raw : JStr) : Option JStr :=
  if jsIndexOf (stripFence raw) '{' = -1 ∨ jsLastIndexOf (stripFence raw) '}' = -1 ∨
      jsIndexOf (stripFence raw) '{' ≥ jsLastIndexOf (stripFence raw) '}' then none
  else some (((stripFence raw).drop (jsIndexOf (stripFence raw) '{').toNat).take
    ((jsLastIndexOf (stripFence raw) '}').toNat + 1 - (jsIndexOf (stripFence raw) '{').toNat))

theorem jsIndexOf_spec (s : JStr) (c : Char) :
    (jsIndexOf s c = -1 ∧ ∀ i : ℕ, s[i]? ≠ some c) ∨
    (∃ i : ℕ, jsIndexOf s c = (i : ℤ) ∧ s[i]? = some c ∧
      ∀ k < i, s[k]? ≠ some c) := by
  induction s with
  | nil =>
    left
    exact ⟨rfl, by simp⟩
  | cons a rest ih =>
    by_cases hac : a = c
    · right
      refine ⟨0, ?_, by simp [hac], by omega⟩
      rw [jsIndexOf, if_pos hac]
      norm_num
    · rcases ih with ⟨h1, h2⟩ | ⟨i, hi, hgi, hmi⟩
      · left
        constructor
        · rw [jsIndexOf, if_neg hac, if_pos h1]
        · intro i
          cases i with
          | zero => simp [hac]
          | succ n => simpa using h2 n
      · right
        refine ⟨i + 1, ?_, by simpa using hgi, ?_⟩
        · rw [jsIndexOf, if_neg hac, if_neg (by omega), hi]
          push_cast
          ring
        · intro k hk
          cases k with
          | zero => simp [hac]
          | succ n => simpa using hmi n (by omega)

theorem jsLastIndexOf_spec (s : JStr) (c : Char) :
    (jsLastIndexOf s c = -1 ∧ ∀ i : ℕ, s[i]? ≠ some c) ∨
    (∃ j : ℕ, jsLastIndexOf s c = (j : ℤ) ∧ s[j]? = some c ∧
      ∀ k, j < k → s[k]? ≠ some c) := by
  induction s with
  | nil =>
    left
    exact ⟨rfl, by simp⟩
  | cons a rest ih =>
    rcases ih with ⟨h1, h2⟩ | ⟨j, hj, hgj, hmj⟩
    · by_cases hac : a = c
      · right
        refine ⟨0, ?_, by simp [hac], ?_⟩
        · rw [jsLastIndexOf, if_pos h1, if_pos hac]
          norm_num
        · intro k hk
          cases k with
          | zero => omega
          | succ n => simpa using h2 n
      · left
        constructor
        · rw [jsLastIndexOf, if_pos h1, if_neg hac]
        · intro i
          cases i with
          | zero => simp [hac]
          | succ n => simpa using h2 n
    · right
      refine ⟨j + 1, ?_, by simpa using hgj, ?_⟩
      · rw [jsLastIndexOf, if_neg (by omega), hj]
        push_cast
        ring
      · intro k hk
        cases k with
        | zero => omega
        | succ n => simpa using hmj n (by omega)

theorem jsIndexOf_eq_of (s : JStr) (c : Char) (i : ℕ)
    (hgi : s[i]? = some c) (hmi : ∀ k < i, s[k]? ≠ some c) :
    jsIndexOf s c = (i : ℤ) := by
  rcases jsIndexOf_spec s c with ⟨_, h2⟩ | ⟨i2, hi2, hg2, hm2⟩
  · exact absurd hgi (h2 i)
  · rcases lt_trichotomy i i2 with h | h | h
    · exact absurd hgi (hm2 i h)
    · subst h
      exact hi2
    · exact absurd hg2 (hmi i2 h)

theorem jsLastIndexOf_eq_of (s : JStr) (c : Char) (j : ℕ)
    (hgj : s[j]? = some c) (hmj : ∀ k, j < k → s[k]? ≠ some c) :
    jsLastIndexOf s c = (j : ℤ) := by
  rcases jsLastIndexOf_spec s c with ⟨_, h2⟩ | ⟨j2, hj2, hg2, hm2⟩
  · exact absurd hgj (h2 j)
  · rcases lt_trichotomy j j2 with h | h | h
    · exact absurd hg2 (hmj j2 h)
    · subst h
      exact hj2
    · exact absurd hgj (hm2 j h)

/-- Claim C3: extraction fails exactly when, after stripping an optional
markdown code fence, there is no first-`{`/last-`}` pair with the first `{`
strictly before the last `}`; when such a pair at positions `i < j` exists,
extraction succeeds with the inclusive substring from `i` to `j`. -/
theorem claim_C3_extraction (raw : JStr) :
    (extract raw = none ↔
      ¬ ∃ i j : ℕ, (stripFence raw)[i]? = some '{' ∧
        (∀ k < i, (stripFence raw)[k]? ≠ some '{') ∧
        (stripFence raw)[j]? = some '}' ∧
        (∀ k, j < k → (stripFence raw)[k]? ≠ some '}') ∧ i < j) ∧
    (∀ i j : ℕ, (stripFence raw)[i]? = some '{' →
      (∀ k < i, (stripFence raw)[k]? ≠ some '{') →
      (stripFence raw)[j]? = some '}' →
      (∀ k, j < k → (stripFence raw)[k]? ≠ some '}') →
      i < j →
      extract raw = some (((stripFence raw).drop i).take (j + 1 - i))) := by
  constructor
  · constructor
    · intro hnone hex
      obtain ⟨i, j, hgi, hmi, hgj, hmj, hij⟩ := hex
      have e1 := jsIndexOf_eq_of (stripFence raw) '{' i hgi hmi
      have e2 := jsLastIndexOf_eq_of (stripFence raw) '}' j hgj hmj
      rw [extract, e1, e2, if_neg (by omega)] at hnone
      exact Option.noConfusion hnone
    · intro hnex
      rw [extract]
      by_cases hc : jsIndexOf (stripFence raw) '{' = -1 ∨
          jsLastIndexOf (stripFence raw) '}' = -1 ∨
          jsIndexOf (stripFence raw) '{' ≥ jsLastIndexOf (stripFence raw) '}'
      · rw [if_pos hc]
      · exfalso
        push_neg at hc
        rcases jsIndexOf_spec (stripFence raw) '{' with ⟨h1, _⟩ | ⟨i, hi, hgi, hmi⟩
        · exact hc.1 h1
        · rcases jsLastIndexOf_spec (stripFence raw) '}' with ⟨h1, _⟩ | ⟨j, hj, hgj, hmj⟩
          · exact hc.2.1 h1
          · refine hnex ⟨i, j, hgi, hmi, hgj, hmj, ?_⟩
            have := hc.2.2
            rw [hi, hj] at this
            exact_mod_cast this
  · intro i j hgi hmi hgj hmj hij
    have e1 := jsIndexOf_eq_of (stripFence raw) '{' i hgi hmi
    have e2 := jsLastIndexOf_eq_of (stripFence raw) '}' j hgj hmj
    rw [extract, e1, e2, if_neg (by omega)]
    simp [Int.toNat_natCast]

def exC3 : JStr := ("```json \x7b\"a\":1\x7d ```").toList

/-- Witness for claim C3: the spec's fenced example strips the fence and
extracts the full brace span. -/
theorem claim_C3_witness :
    extract exC3 = some (((stripFence exC3).drop 0).take (6 + 1 - 0)) :=
  (claim_C3_extraction exC3).2 0 6 rfl (by omega) rfl
    (by
      intro k hk
      have hlen : (stripFence exC3).length ≤ k := by
        have h7 : (stripFence exC3).length = 7 := by decide
        omega
      simp [List.getElem?_eq_none hlen])
    (by omega)

/- Strict JSON parsing (`JSON.parse`), modelled as a fuel-indexed recursive
descent parser. Every recursive call both decrements the fuel and consumes
input; two fuel units per input character are always sufficient, so
`jsonParse` supplies `2 * length + 2` and the fuel never runs out. -/

def isJsonWS (c : Char) : Bool := c = ' ' || c = '\t' || c = '\n' || c = '\r'

/-- JSON string body after the opening quote: content and remainder after
the closing quote; escapes are decoded, unescaped control characters are
rejected (a lone `\uXXXX` outside the valid scalar range falls back to
`Char.ofNat`'s default, a modelling approximation of UTF-16 surrogates). -/
def parseStrBody : JStr → Option (JStr × JStr)
  | [] => none
  | c :: r =>
    if c = '"' then some ([], r)
    else if c = '\\' then
      match r with
      | [] => none
      | e :: r2 =>
        if e = '"' ∨ e = '\\' ∨ e = '/' then
          (parseStrBody r2).map (fun p => (e :: p.1, p.2))
        else if e = 'b' then (parseStrBody r2).map (fun p => ('\x08' :: p.1, p.2))
        else if e = 'f' then (parseStrBody r2).map (fun p => ('\x0c' :: p.1, p.2))
        else if e = 'n' then (parseStrBody r2).map (fun p => ('\n' :: p.1, p.2))
        else if e = 'r' then (parseStrBody r2).map (fun p => ('\r' :: p.1, p.2))
        else if e = 't' then (parseStrBody r2).map (fun p => ('\t' :: p.1, p.2))
        else if e = 'u' then
          match r2 with
          | h1 :: h2 :: h3 :: h4 :: r3 =>
            match hexVal h1, hexVal h2, hexVal h3, hexVal h4 with
            | some x, some y, some z, some w =>
              (parseStrBody r3).map
                (fun p => (Char.ofNat (((x * 16 + y) * 16 + z) * 16 + w) :: p.1, p.2))
            | _, _, _, _ => none
          | _ => none
        else none
    else if c.toNat < 32 then none
    else (parseStrBody r).map (fun p => (c :: p.1, p.2))

/-- Optional JSON exponent part, returned as a rational multiplier. -/
def parseJExp (s : JStr) : Option (ℚ × JStr) :=
  match s with
  | c :: r =>
    if c = 'e' ∨ c = 'E' then
      match r with
      | c2 :: r2 =>
        if c2 = '+' then
          if r2.takeWhile Char.isDigit = [] then none
          else some ((10 : ℚ) ^ natOfDigits (r2.takeWhile Char.isDigit),
            r2.dropWhile Char.isDigit)
        else if c2 = '-' then
          if r2.takeWhile Char.isDigit = [] then none
          else some (1 / (10 : ℚ) ^ natOfDigits (r2.takeWhile Char.isDigit),
            r2.dropWhile Char.isDigit)
        else
          if r.takeWhile Char.isDigit = [] then none
          else some ((10 : ℚ) ^ natOfDigits (r.takeWhile Char.isDigit),
            r.dropWhile Char.isDigit)
      | [] => none
    else some (1, s)
  | [] => some (1, s)

/-- Unsigned strict-JSON number (no leading zeros, mandatory fraction
digits), returning the value and the remainder. -/
def parseJNumberCore (s : JStr) : Option (ℚ × JStr) :=
  if s.takeWhile Char.isDigit = [] then none
  else if 1 < (s.takeWhile Char.isDigit).length ∧ (s.takeWhile Char.isDigit).headI = '0'
  then none
  else
    match s.dropWhile Char.isDigit with
    | '.' :: r =>
      if r.takeWhile Char.isDigit = [] then none
      else (parseJExp (r.dropWhile Char.isDigit)).map (fun pe =>
        ((natOfDigits (s.takeWhile Char.isDigit ++ r.takeWhile Char.isDigit) : ℚ) /
          (10 : ℚ) ^ (r.takeWhile Char.isDigit).length * pe.1, pe.2))
    | s2 => (parseJExp s2).map (fun pe =>
        ((natOfDigits (s.takeWhile Char.isDigit) : ℚ) * pe.1, pe.2))

def parseJNumber (s : JStr) : Option (ℚ × JStr) :=
  match s with
  | '-' :: r => (parseJNumberCore r).map (fun p => (-p.1, p.2))
  | _ => parseJNumberCore s

mutual

def parseVal : Nat → JStr → Option (JValue × JStr)
  | 0, _ => none
  | Nat.succ f, s =>
    match s.dropWhile isJsonWS with
    | [] => none
    | c :: r =>
      if c = '{' then
        match r.dropWhile isJsonWS with
        | c2 :: r2 =>
          if c2 = '}' then some (JValue.obj [], r2)
          else parseMembers f (c2 :: r2) []
        | [] => none
      else if c = '[' then
        match r.dropWhile isJsonWS with
        | c2 :: r2 =>
          if c2 = ']' then some (JValue.arr [], r2)
          else parseItems f (c2 :: r2) []
        | [] => none
      else if c = '"' then
        (parseStrBody r).map (fun p => (JValue.str p.1, p.2))
      else if c = 't' then
        match r with
        | 'r' :: 'u' :: 'e' :: r2 => some (JValue.bool true, r2)
        | _ => none
      else if c = 'f' then
        match r with
        | 'a' :: 'l' :: 's' :: 'e' :: r2 => some (JValue.bool false, r2)
        | _ => none
      else if c = 'n' then
        match r with
        | 'u' :: 'l' :: 'l' :: r2 => some (JValue.null, r2)
        | _ => none
      else
        (parseJNumber (c :: r)).map (fun p => (JValue.num p.1, p.2))

def parseItems : Nat → JStr → List JValue → Option (JValue × JStr)
  | 0, _, _ => none
  | Nat.succ f, s, acc =>
    match parseVal f s with
    | none => none
    | some (v, rest) =>
      match rest.dropWhile isJsonWS with
      | ',' :: r2 => parseItems f r2 (v :: acc)
      | ']' :: r2 => some (JValue.arr (v :: acc).reverse, r2)
      | _ => none

def parseMembers : Nat → JStr → List (JStr × JValue) → Option (JValue × JStr)
  | 0, _, _ => none
  | Nat.succ f, s, acc =>
    match s.dropWhile isJsonWS with
    | c :: r =>
      if c = '"' then
        match parseStrBody r with
        | some (key, r2) =>
          match r2.dropWhile isJsonWS with
          | ':' :: r3 =>
            match parseVal f r3 with
            | some (v, r4) =>
              match r4.dropWhile isJsonWS with
              | ',' :: r5 => parseMembers f r5 ((key, v) :: acc)
              | '}' :: r5 => some (JValue.obj ((key, v) :: acc).reverse, r5)
              | _ => none
            | none => none
          | _ => none
        | none => none
      else none
    | [] => none

end

/-- `JSON.parse`: a single value with nothing but whitespace after it. -/
def jsonParse (s : JStr) : Option JValue :=
  match parseVal (2 * s.length + 2) s with
  | some (v, rest) => if rest.dropWhile isJsonWS = [] then some v else none
  | none => none

/- The four repair transforms of the `catch` branch, in source order:
quote bare keys, single-quoted values to double-quoted, trailing-comma
removal, brace balancing. -/

theorem dropWhile_length_le (p : Char → Bool) (l : JStr) :
    (l.dropWhile p).length ≤ l.length := by
  induction l with
  | nil => simp
  | cons a rest ih =>
    rw [List.dropWhile_cons]
    split
    · simp
      omega
    · simp

/-- One match of `/(\s*)(\w+)(\s*):/` at the current position: returns the
replacement text `$1"$2"$3:` and the remainder after the match. -/
def keyMatch (l : JStr) : Option (JStr × JStr) :=
  if (l.dropWhile isWSChar).takeWhile isWordChar = [] then none
  else
    match ((l.dropWhile isWSChar).dropWhile isWordChar).dropWhile isWSChar with
    | ':' :: rest =>
      some (l.takeWhile isWSChar ++
        '"' :: ((l.dropWhile isWSChar).takeWhile isWordChar ++
          '"' :: (((l.dropWhile isWSChar).dropWhile isWordChar).takeWhile isWSChar ++ [':'])),
        rest)
    | _ => none

theorem keyMatch_length {l : JStr} {p : JStr × JStr} (h : keyMatch l = some p) :
    p.2.length < l.length := by
  rw [keyMatch] at h
  split at h
  · exact Option.noConfusion h
  · split at h
    · rename_i rest heq
      cases h
      have h1 : rest.length <
          ((((l.dropWhile isWSChar).dropWhile isWordChar).dropWhile isWSChar)).length := by
        rw [heq]
        simp
      have h2 := dropWhile_length_le isWSChar
        ((l.dropWhile isWSChar).dropWhile isWordChar)
      have h3 := dropWhile_length_le isWordChar (l.dropWhile isWSChar)
      have h4 := dropWhile_length_le isWSChar l
      show rest.length < l.length
      omega
    · exact Option.noConfusion h

/-- Scanner for the key-quoting replace. Structural recursion on a fuel
argument so that the definition evaluates in the kernel; by
`keyMatch_length` every step consumes at least one character, so the fuel
`l.length` supplied by `quoteKeys` is never exhausted. -/
def quoteKeysGo : Nat → JStr → JStr
  | _, [] => []
  | 0, l => l
  | Nat.succ f, c :: rest =>
    match keyMatch (c :: rest) with
    | some p => p.1 ++ quoteKeysGo f p.2
    | none => c :: quoteKeysGo f rest

/-- Global replace of `/(\s*)(\w+)(\s*):/g` with `'$1"$2"$3:'`. -/
def quoteKeys (l : JStr) : JStr := quoteKeysGo l.length l

def squote : Char := Char.ofNat 39

def splitAtQuote : JStr → Option (JStr × JStr)
  | [] => none
  | c :: rest =>
    if c = squote then some ([], rest)
    else (splitAtQuote rest).map (fun p => (c :: p.1, p.2))

theorem splitAtQuote_length {l : JStr} {p : JStr × JStr} (h : splitAtQuote l = some p) :
    p.2.length < l.length := by
  induction l generalizing p with
  | nil => exact Option.noConfusion h
  | cons c rest ih =>
    rw [splitAtQuote] at h
    split at h
    · cases h
      simp
    · rw [Option.map_eq_some'] at h
      obtain ⟨q, hq, hfq⟩ := h
      have := ih hq
      rw [← hfq]
      simp
      omega

/-- One match of `/:\s*'([^']*)'/` starting right after a `:`:
the captured content and the remainder after the closing single quote. -/
def quoteValMatch (rest : JStr) : Option (JStr × JStr) :=
  match rest.dropWhile isWSChar with
  | c :: r2 => if c = squote then splitAtQuote r2 else none
  | [] => none

theorem quoteValMatch_length {rest : JStr} {p : JStr × JStr}
    (h : quoteValMatch rest = some p) : p.2.length < rest.length := by
  rw [quoteValMatch] at h
  split at h
  · rename_i c r2 heq
    split at h
    · have h1 := splitAtQuote_length h
      have h2 : (c :: r2).length ≤ rest.length := by
        rw [← heq]
        exact dropWhile_length_le isWSChar rest
      simp at h2
      omega
    · exact Option.noConfusion h
  · exact Option.noConfusion h

/-- Scanner for the quote-style replace (fuel as in `quoteKeysGo`;
`quoteValMatch_length` keeps the fuel ahead of the input). -/
def singleToDoubleGo : Nat → JStr → JStr
  | _, [] => []
  | 0, l => l
  | Nat.succ f, c :: rest =>
    if c = ':' then
      match quoteValMatch rest with
      | some p => ':' :: ' ' :: '"' :: (p.1 ++ '"' :: singleToDoubleGo f p.2)
      | none => ':' :: singleToDoubleGo f rest
    else c :: singleToDoubleGo f rest

/-- Global replace of `/:\s*'([^']*)'/g` with `': "$1"'`. -/
def singleToDouble (l : JStr) : JStr := singleToDoubleGo l.length l

/-- One match of `/,(\s*[}\]])/` at the current position (after the `,`):
the whitespace run, the closing bracket, and the remainder. -/
def commaMatch (rest : JStr) : Option (JStr × Char × JStr) :=
  match rest.dropWhile isWSChar with
  | b :: r2 =>
    if b = '}' ∨ b = ']' then some (rest.takeWhile isWSChar, b, r2) else none
  | [] => none

theorem commaMatch_length {rest : JStr} {p : JStr × Char × JStr}
    (h : commaMatch rest = some p) : p.2.2.length < rest.length := by
  rw [commaMatch] at h
  split at h
  · rename_i b r2 heq
    split at h
    · cases h
      have h2 : (b :: r2).length ≤ rest.length := by
        rw [← heq]
        exact dropWhile_length_le isWSChar rest
      simp at h2
      show r2.length < rest.length
      omega
    · exact Option.noConfusion h
  · exact Option.noConfusion h

/-- Scanner for the trailing-comma replace (fuel as in `quoteKeysGo`;
`commaMatch_length` keeps the fuel ahead of the input). -/
def removeTrailingCommasGo : Nat → JStr → JStr
  | _, [] => []
  | 0, l => l
  | Nat.succ f, c :: rest =>
    if c = ',' then
      match commaMatch rest with
      | some p => p.1 ++ p.2.1 :: removeTrailingCommasGo f p.2.2
      | none => ',' :: removeTrailingCommasGo f rest
    else c :: removeTrailingCommasGo f rest

/-- Global replace of `/,(\s*[}\]])/g` with `'$1'`. -/
def removeTrailingCommas (l : JStr) : JStr := removeTrailingCommasGo l.length l

/-- Append one `}` per unmatched `{` (counting all occurrences). -/
def balanceBraces (s : JStr) : JStr :=
  if s.count '}' < s.count '{' then s ++ List.replicate (s.count '{' - s.count '}') '}'
  else s

/-- The one-shot repair: the three regex replaces in source order, then
brace balancing. -/
def repairText (jsonStr : JStr) : JStr :=
  balanceBraces (removeTrailingCommas (singleToDouble (quoteKeys jsonStr)))

inductive AIParseFail where
  | emptyInput : AIParseFail
  | noJsonFound : AIParseFail

def reasonJsonParsingFailed : JStr := "JSON parsing failed".toList

/-- Steps 2-3 of `parseAIResponse` on the extracted span: strict parse,
one-shot repair and re-parse, canned fallback; every successful parse is
normalized. -/
def parseStage2 (jsonStr : JStr) : Except AIParseFail AnalysisResult :=
  match jsonParse jsonStr with
  | some parsed => Except.ok (validateAndRepairAnalysis parsed)
  | none =>
    match jsonParse (repairText jsonStr) with
    | some parsed => Except.ok (validateAndRepairAnalysis parsed)
    | none => Except.ok (createFallbackAnalysis reasonJsonParsingFailed)

/-- `parseAIResponse`: throws on empty input, throws when no brace span is
found, otherwise runs the parse/repair/fallback stage on the span. -/
def parseAIResponse (rawText : JStr) : Except AIParseFail AnalysisResult :=
  if rawText = [] then Except.error AIParseFail.emptyInput
  else
    match extract rawText with
    | none => Except.error AIParseFail.noJsonFound
    | some jsonStr => parseStage2 jsonStr

/-- Claim C1, corrected. As stated the claim is false: `parseAIResponse`
throws on the empty string and on any input with no extractable brace span
(e.g. pure prose) — see the counterexample. The totality that does hold:
whenever extraction succeeds, `parseAIResponse` never throws and always
returns a schema-valid `AnalysisResult` (strict parse, one-shot repair, or
canned fallback). -/
theorem claim_C1_parse_total (raw span : JStr) (h : extract raw = some span) :
    ∃ a, parseAIResponse raw = Except.ok a ∧ ValidAnalysis a := by
  have hne : raw ≠ [] := by
    intro he
    subst he
    rw [show extract [] = none from rfl] at h
    exact Option.noConfusion h
  rw [parseAIResponse, if_neg hne, h]
  show ∃ a, parseStage2 span = Except.ok a ∧ ValidAnalysis a
  rw [parseStage2]
  cases h1 : jsonParse span with
  | some parsed => exact ⟨_, rfl, validateAndRepairAnalysis_valid parsed⟩
  | none =>
    cases h2 : jsonParse (repairText span) with
    | some parsed => exact ⟨_, rfl, validateAndRepairAnalysis_valid parsed⟩
    | none => exact ⟨_, rfl, createFallbackAnalysis_valid _ (by decide)⟩

def proseExample : JStr := "no braces here".toList

/-- Concrete refutation of claim C1 as stated: `parseAIResponse` throws
(returns an error, modelling a thrown exception) on the empty string and on
brace-free prose, instead of returning a schema-valid record. -/
theorem claim_C1_counterexample :
    parseAIResponse [] = Except.error AIParseFail.emptyInput ∧
    parseAIResponse proseExample = Except.error AIParseFail.noJsonFound :=
  ⟨rfl, rfl⟩

def exC1 : JStr := "\x7b\"a\": 1,\x7d".toList

/-- Witness for the corrected claim C1 at a trailing-comma input (strict
parse fails, repair succeeds). -/
theorem claim_C1_witness :
    ∃ a, parseAIResponse exC1 = Except.ok a ∧ ValidAnalysis a :=
  claim_C1_parse_total exC1 exC1 rfl

def exC4 : JStr := "\x7b\"a\": \x7b\"b\": 1\x7d".toList

def exC4closed : JStr := "\x7b\"a\": \x7b\"b\": 1\x7d\x7d".toList

def keyA : JStr := "a".toList

def keyB : JStr := "b".toList

/-- Claim C4: when the strict parse of the extracted span fails,
`parseAIResponse` applies exactly the four pure text transforms in source
order — key quoting, quote-style conversion, trailing-comma removal, brace
balancing — and re-attempts a strict parse exactly once, normalizing on
success and falling back on failure; and the span `{"a": {"b": 1}` (one
unclosed brace) repairs to `{"a": {"b": 1}}`, which parses to the expected
object. -/
theorem claim_C4_repair_pipeline :
    (∀ raw span, extract raw = some span → jsonParse span = none →
      parseAIResponse raw =
        (match jsonParse
            (balanceBraces (removeTrailingCommas (singleToDouble (quoteKeys span)))) with
         | some v => Except.ok (validateAndRepairAnalysis v)
         | none => Except.ok (createFallbackAnalysis reasonJsonParsingFailed))) ∧
    jsonParse exC4 = none ∧
    repairText exC4 = exC4closed ∧
    jsonParse exC4closed = some (JValue.obj [(keyA, JValue.obj [(keyB, JValue.num 1)])]) := by
  refine ⟨?_, rfl, rfl, ?_⟩
  swap
  · have h : jsonParse exC4closed = some (JValue.obj [(keyA, JValue.obj
        [(keyB, JValue.num ((natOfDigits ("1".toList) : ℚ) * 1))])]) := rfl
    rw [h, show natOfDigits ("1".toList) = 1 from by decide]
    norm_num
  intro raw span hx hp
  have hne : raw ≠ [] := by
    intro he
    subst he
    rw [show extract [] = none from rfl] at hx
    exact Option.noConfusion hx
  rw [parseAIResponse, if_neg hne, hx]
  show parseStage2 span = _
  rw [show balanceBraces (removeTrailingCommas (singleToDouble (quoteKeys span)))
      = repairText span from rfl]
  rw [parseStage2, hp]

/-- Witness for claim C4: running the whole pipeline on the unclosed-brace
example yields the normalized repaired object. -/
theorem claim_C4_witness :
    parseAIResponse exC4 =
      Except.ok (validateAndRepairAnalysis
        (JValue.obj [(keyA, JValue.obj [(keyB, JValue.num 1)])])) :=
  (claim_C4_repair_pipeline.1 exC4 exC4 rfl rfl).trans rfl

/- `transcribeAudio`: the fixed encoding priority list, tried in order
against an abstract recognize oracle; the first encoding whose joined,
trimmed transcript is strictly longer than 10 characters short-circuits with
success, and a full sweep without one fails carrying the last upstream
error. The model also returns the trace of encodings actually attempted. -/

def strWebm : JStr := "WEBM_OPUS".toList
def strMp3 : JStr := "MP3".toList
def strWav : JStr := "WAV".toList
def strOgg : JStr := "OGG_OPUS".toList

structure EncodingConfig where
  encoding : JStr
  sampleRateHertz : Nat

def encodingConfigs : List EncodingConfig :=
  [⟨strWebm, 48000⟩, ⟨strMp3, 44100⟩, ⟨strWav, 16000⟩, ⟨strOgg, 48000⟩]

structure SpeechAlt where
  transcript : JStr
  confidence : Option ℚ

structure SpeechSegment where
  alternatives : List SpeechAlt

/-- One upstream call: either a thrown error (caught by the loop) or a
response with a list of result segments. -/
inductive RecognizeOutcome where
  | apiError (msg : JStr)
  | response (results : List SpeechSegment)

/-- Stands for the message of the TypeError thrown when a segment has no
alternatives (`result.alternatives[0]` is undefined); the `catch` treats it
like any other failed attempt. -/
def typeErrorMarker : JStr := "TypeError".toList

def segmentTranscripts (results : List SpeechSegment) : Option (List JStr) :=
  results.mapM (fun r => Option.map SpeechAlt.transcript r.alternatives.head?)

/-- `results.map(r => r.alternatives[0].transcript).join(" ").trim()`. -/
def joinedTranscript (results : List SpeechSegment) : Option JStr :=
  (segmentTranscripts results).map (fun ts => trimWS (List.intercalate [' '] ts))

/-- `confidence || 0.8`. -/
def confValue : Option ℚ → ℚ
  | some q => if q = 0 then 4 / 5 else q
  | none => 4 / 5

def segConf (r : SpeechSegment) : ℚ :=
  match r.alternatives.head? with
  | some alt => confValue alt.confidence
  | none => 4 / 5

def avgConfidence (results : List SpeechSegment) : ℚ :=
  (results.foldl (fun acc r => acc + segConf r) 0) / results.length

/-- `Math.round`. -/
def jsRound (q : ℚ) : Int := ⌊q + 1 / 2⌋

inductive TranscribeResult where
  | success (text : JStr) (confidence : Int) (encoding : JStr)
  | failure (lastError : Option JStr)

def transcribeGo (recognize : EncodingConfig → RecognizeOutcome) :
    List EncodingConfig → Option JStr → TranscribeResult × List EncodingConfig
  | [], lastError => (TranscribeResult.failure lastError, [])
  | cfg :: rest, lastError =>
    match recognize cfg with
    | RecognizeOutcome.apiError m =>
      (fun p => (p.1, cfg :: p.2)) (transcribeGo recognize rest (some m))
    | RecognizeOutcome.response results =>
      if 0 < results.length then
        match joinedTranscript results with
        | some t =>
          if 10 < t.length then
            (TranscribeResult.success t (jsRound (avgConfidence results * 100)) cfg.encoding,
              [cfg])
          else (fun p => (p.1, cfg :: p.2)) (transcribeGo recognize rest lastError)
        | none =>
          (fun p => (p.1, cfg :: p.2)) (transcribeGo recognize rest (some typeErrorMarker))
      else (fun p => (p.1, cfg :: p.2)) (transcribeGo recognize rest lastError)

def transcribeAudio (recognize : EncodingConfig → RecognizeOutcome) :
    TranscribeResult × List EncodingConfig :=
  transcribeGo recognize encodingConfigs none

/-- An attempt is viable when the response is non-empty, the transcript map
does not throw, and the joined trimmed transcript exceeds 10 characters. -/
def viable (recognize : EncodingConfig → RecognizeOutcome) (cfg : EncodingConfig) : Bool :=
  match recognize cfg with
  | RecognizeOutcome.apiError _ => false
  | RecognizeOutcome.response results =>
    if 0 < results.length then
      match joinedTranscript results with
      | some t => decide (10 < t.length)
      | none => false
    else false

/-- The `lastError` value after sweeping a list of encodings without a
viable transcript: api errors and segment TypeErrors update it, short
transcripts leave it unchanged. -/
def lastErrorScan (recognize : EncodingConfig → RecognizeOutcome) :
    List EncodingConfig → Option JStr → Option JStr
  | [], le => le
  | cfg :: rest, le =>
    lastErrorScan recognize rest
      (match recognize cfg with
       | RecognizeOutcome.apiError m => some m
       | RecognizeOutcome.response results =>
         if 0 < results.length then
           (match joinedTranscript results with
            | some _ => le
            | none => some typeErrorMarker)
         else le)

theorem transcribeGo_step_notviable (recognize : EncodingConfig → RecognizeOutcome)
    (cfg : EncodingConfig) (rest : List EncodingConfig) (le : Option JStr)
    (h : viable recognize cfg = false) :
    ∃ le2, transcribeGo recognize (cfg :: rest) le =
      ((transcribeGo recognize rest le2).1, cfg :: (transcribeGo recognize rest le2).2) := by
  cases hr : recognize cfg with
  | apiError m =>
    refine ⟨some m, ?_⟩
    simp only [transcribeGo]
    rw [hr]
  | response results =>
    have h2 : (if 0 < results.length then
        (match joinedTranscript results with
         | some t => decide (10 < t.length)
         | none => false)
        else false) = false := by
      rw [viable, hr] at h
      exact h
    by_cases h0 : 0 < results.length
    · rw [if_pos h0] at h2
      cases hj : joinedTranscript results with
      | none =>
        refine ⟨some typeErrorMarker, ?_⟩
        simp only [transcribeGo]
        rw [hr]
        simp only []
        rw [if_pos h0, hj]
      | some t =>
        rw [hj] at h2
        have ht : ¬ 10 < t.length := by simpa using h2
        refine ⟨le, ?_⟩
        simp only [transcribeGo]
        rw [hr]
        simp only []
        rw [if_pos h0, hj]
        simp only []
        rw [if_neg ht]
    · refine ⟨le, ?_⟩
      simp only [transcribeGo]
      rw [hr]
      simp only []
      rw [if_neg h0]

theorem transcribeGo_all_fail (recognize : EncodingConfig → RecognizeOutcome) :
    ∀ (L : List EncodingConfig) (le : Option JStr),
      (∀ cfg ∈ L, viable recognize cfg = false) →
      transcribeGo recognize L le =
        (TranscribeResult.failure (lastErrorScan recognize L le), L) := by
  intro L
  induction L with
  | nil =>
    intro le h
    rfl
  | cons cfg rest ih =>
    intro le h
    have hcfg : viable recognize cfg = false := h cfg (List.mem_cons_self _ _)
    have hrest : ∀ c ∈ rest, viable recognize c = false :=
      fun c hc => h c (List.mem_cons_of_mem _ hc)
    cases hr : recognize cfg with
    | apiError m =>
      simp only [transcribeGo, lastErrorScan]
      rw [hr]
      simp only []
      rw [ih (some m) hrest]
    | response results =>
      have h2 : (if 0 < results.length then
          (match joinedTranscript results with
           | some t => decide (10 < t.length)
           | none => false)
          else false) = false := by
        rw [viable, hr] at hcfg
        exact hcfg
      simp only [transcribeGo, lastErrorScan]
      rw [hr]
      simp only []
      by_cases h0 : 0 < results.length
      · rw [if_pos h0] at h2
        rw [if_pos h0, if_pos h0]
        cases hj : joinedTranscript results with
        | none =>
          simp only []
          rw [ih (some typeErrorMarker) hrest]
        | some t =>
          rw [hj] at h2
          have ht : ¬ 10 < t.length := by simpa using h2
          simp only []
          rw [if_neg ht, ih le hrest]
      · rw [if_neg h0, if_neg h0, ih le hrest]

theorem transcribeGo_first_viable (recognize : EncodingConfig → RecognizeOutcome) :
    ∀ (L : List EncodingConfig) (le : Option JStr) (i : ℕ) (cfgi : EncodingConfig),
      L[i]? = some cfgi → viable recognize cfgi = true →
      (∀ j cfg, j < i → L[j]? = some cfg → viable recognize cfg = false) →
      (transcribeGo recognize L le).2 = L.take (i + 1) ∧
      ∃ results t, recognize cfgi = RecognizeOutcome.response results ∧
        joinedTranscript results = some t ∧ 10 < t.length ∧
        (transcribeGo recognize L le).1 =
          TranscribeResult.success t (jsRound (avgConfidence results * 100)) cfgi.encoding := by
  intro L
  induction L with
  | nil =>
    intro le i cfgi hget
    exact absurd hget (by simp)
  | cons cfg rest ih =>
    intro le i cfgi hget hv hmin
    cases i with
    | zero =>
      have hc : cfg = cfgi := by
        have : some cfg = some cfgi := by simpa using hget
        exact Option.some.inj this
      subst hc
      cases hr : recognize cfg with
      | apiError m =>
        rw [viable, hr] at hv
        exact Bool.noConfusion hv
      | response results =>
        have hv2 : (if 0 < results.length then
            (match joinedTranscript results with
             | some t => decide (10 < t.length)
             | none => false)
            else false) = true := by
          rw [viable, hr] at hv
          exact hv
        by_cases h0 : 0 < results.length
        · rw [if_pos h0] at hv2
          cases hj : joinedTranscript results with
          | none =>
            rw [hj] at hv2
            exact Bool.noConfusion hv2
          | some t =>
            rw [hj] at hv2
            have ht : 10 < t.length := by simpa using hv2
            have hred : transcribeGo recognize (cfg :: rest) le =
                (TranscribeResult.success t (jsRound (avgConfidence results * 100)) cfg.encoding,
                  [cfg]) := by
              simp only [transcribeGo]
              rw [hr]
              simp only []
              rw [if_pos h0, hj]
              simp only []
              rw [if_pos ht]
            rw [hred]
            exact ⟨rfl, results, t, rfl, hj, ht, rfl⟩
        · rw [if_neg h0] at hv2
          exact Bool.noConfusion hv2
    | succ n =>
      have hcfg : viable recognize cfg = false := hmin 0 cfg (by omega) (by simp)
      have hget2 : rest[n]? = some cfgi := by simpa using hget
      have hmin2 : ∀ j c, j < n → rest[j]? = some c → viable recognize c = false := by
        intro j c hj hg
        exact hmin (j + 1) c (by omega) (by simpa using hg)
      obtain ⟨le2, hstep⟩ := transcribeGo_step_notviable recognize cfg rest le hcfg
      have ihres := ih le2 n cfgi hget2 hv hmin2
      rw [hstep]
      constructor
      · show cfg :: (transcribeGo recognize rest le2).2 = (cfg :: rest).take (n + 1 + 1)
        rw [List.take_succ_cons, ihres.1]
      · obtain ⟨results, t, h1, h2, h3, h4⟩ := ihres.2
        exact ⟨results, t, h1, h2, h3, h4⟩

/-- Claim C8: `transcribeAudio` tries WEBM_OPUS, MP3, WAV, OGG_OPUS strictly
in that order, one upstream call per encoding; the first encoding whose
joined transcript exceeds 10 characters short-circuits with success (the
attempt trace is exactly the prefix up to it), and if no encoding is viable
the sweep visits the whole list and fails carrying the last upstream
error. -/
theorem claim_C8_transcription_priority (recognize : EncodingConfig → RecognizeOutcome) :
    encodingConfigs.map EncodingConfig.encoding = [strWebm, strMp3, strWav, strOgg] ∧
    (∀ i cfgi, encodingConfigs[i]? = some cfgi → viable recognize cfgi = true →
      (∀ j cfg, j < i → encodingConfigs[j]? = some cfg → viable recognize cfg = false) →
      (transcribeAudio recognize).2 = encodingConfigs.take (i + 1) ∧
      ∃ results t, recognize cfgi = RecognizeOutcome.response results ∧
        joinedTranscript results = some t ∧ 10 < t.length ∧
        (transcribeAudio recognize).1 =
          TranscribeResult.success t (jsRound (avgConfidence results * 100)) cfgi.encoding) ∧
    ((∀ cfg ∈ encodingConfigs, viable recognize cfg = false) →
      (transcribeAudio recognize).1 =
        TranscribeResult.failure (lastErrorScan recognize encodingConfigs none) ∧
      (transcribeAudio recognize).2 = encodingConfigs) := by
  refine ⟨rfl, ?_, ?_⟩
  · intro i cfgi hget hv hmin
    exact transcribeGo_first_viable recognize encodingConfigs none i cfgi hget hv hmin
  · intro h
    rw [transcribeAudio, transcribeGo_all_fail recognize encodingConfigs none h]
    exact ⟨rfl, rfl⟩

def recExample : EncodingConfig → RecognizeOutcome := fun cfg =>
  if cfg.encoding = strWebm then RecognizeOutcome.apiError ("webm failed".toList)
  else RecognizeOutcome.response
    [⟨[⟨"this is a long transcript".toList, some (9 / 10)⟩]⟩]

/-- Witness for claim C8: the first encoding errors, the second yields a
long transcript, and the sweep stops after exactly two attempts. -/
theorem claim_C8_witness :
    (transcribeAudio recExample).2 = encodingConfigs.take 2 ∧
    ∃ results t, recExample ⟨strMp3, 44100⟩ = RecognizeOutcome.response results ∧
      joinedTranscript results = some t ∧ 10 < t.length ∧
      (transcribeAudio recExample).1 =
        TranscribeResult.success t (jsRound (avgConfidence results * 100)) strMp3 :=
  (claim_C8_transcription_priority recExample).2.1 1 ⟨strMp3, 44100⟩ rfl (by decide)
    (by
      intro j cfg hj hg
      have hj0 : j = 0 := by omega
      subst hj0
      have h0 : (encodingConfigs[0]? : Option EncodingConfig) = some ⟨strWebm, 48000⟩ := rfl
      rw [h0] at hg
      rw [← Option.some.inj hg]
      decide)

/- `sendWhatsAppMessage` (production branch): up to three posts to the
WhatsApp Business API against an abstract post oracle, with backoff
`2^(attempt-1)` seconds (in milliseconds, as passed to setTimeout) after
each failed attempt that is not the last, and a manual-action wa.me
fallback response after the third failure. The model returns, besides the
response, the backoff waits and the attempted indices. -/

inductive PostOutcome where
  | sent (messageId : JStr)
  | failed (err : JStr)

structure SendResponse where
  success : Bool
  mode : JStr
  messageId : Option JStr
  message : JStr
  waLink : Option JStr
  apiError : Option JStr

/-- The characters `encodeURIComponent` leaves unescaped. -/
def isUriUnreserved (c : Char) : Bool :=
  ('A' ≤ c && c ≤ 'Z') || ('a' ≤ c && c ≤ 'z') || c.isDigit ||
  c = '-' || c = '_' || c = '.' || c = '!' || c = '~' || c = '*' ||
  c = squote || c = '(' || c = ')'

def hexDigitChar (n : Nat) : Char :=
  if n < 10 then Char.ofNat (48 + n) else Char.ofNat (55 + n)

def utf8Bytes (c : Char) : List Nat :=
  if c.toNat < 128 then [c.toNat]
  else if c.toNat < 2048 then [192 + c.toNat / 64, 128 + c.toNat % 64]
  else if c.toNat < 65536 then
    [224 + c.toNat / 4096, 128 + (c.toNat / 64) % 64, 128 + c.toNat % 64]
  else [240 + c.toNat / 262144, 128 + (c.toNat / 4096) % 64,
    128 + (c.toNat / 64) % 64, 128 + c.toNat % 64]

def percentByte (b : Nat) : List Char := ['%', hexDigitChar (b / 16), hexDigitChar (b % 16)]

def encodeURIComponent (s : JStr) : JStr :=
  (s.map (fun c =>
    if isUriUnreserved c then [c] else ((utf8Bytes c).map percentByte).flatten)).flatten

/-- `phoneNumber.replace(/[^\d]/g, '')`. -/
def cleanDigits (phone : JStr) : JStr := phone.filter Char.isDigit

def waHost : JStr := "https://wa.me/".toList
def waTextQuery : JStr := "?text=".toList

def waLink (phone msg : JStr) : JStr :=
  waHost ++ cleanDigits phone ++ waTextQuery ++ encodeURIComponent msg

def modeProduction : JStr := "production".toList
def modeFallback : JStr := "fallback".toList

def fallbackSendResponse (phone msg : JStr) (lastErr : Option JStr) : SendResponse :=
  { success := false
    mode := modeFallback
    messageId := none
    message := msg
    waLink := some (waLink phone msg)
    apiError := lastErr }

def productionSendResponse (phone msg mid : JStr) : SendResponse :=
  { success := true
    mode := modeProduction
    messageId := some mid
    message := msg
    waLink := none
    apiError := none }

def sendGo (post : ℕ → PostOutcome) (phone msg : JStr) :
    ℕ → ℕ → Option JStr → SendResponse × List ℕ × List ℕ
  | 0, _, lastErr => (fallbackSendResponse phone msg lastErr, [], [])
  | Nat.succ remaining, attempt, lastErr =>
    match post attempt with
    | PostOutcome.sent mid => (productionSendResponse phone msg mid, [], [attempt])
    | PostOutcome.failed e =>
      if 0 < remaining then
        ((sendGo post phone msg remaining (attempt + 1) (some e)).1,
         2 ^ (attempt - 1) * 1000 :: (sendGo post phone msg remaining (attempt + 1) (some e)).2.1,
         attempt :: (sendGo post phone msg remaining (attempt + 1) (some e)).2.2)
      else (fallbackSendResponse phone msg (some e), [], [attempt])

def sendWhatsAppMessage (post : ℕ → PostOutcome) (phone msg : JStr) :
    SendResponse × List ℕ × List ℕ :=
  sendGo post phone msg 3 1 none

/-- Claim C9: delivery is attempted at most three times; a success at
attempt k returns the production response immediately with backoff waits
`2^(j-1)` seconds (as `setTimeout` milliseconds) after each failed attempt
`j < k`; after three failures the function returns the manual-action
fallback — `success: false`, `mode: "fallback"`, a `wa.me` link carrying
the generated message, and the last upstream error — rather than throwing
or retrying further. -/
theorem claim_C9_whatsapp_retry (post : ℕ → PostOutcome) (phone msg : JStr) :
    ((sendWhatsAppMessage post phone msg).2.2.length ≤ 3) ∧
    (∀ mid, post 1 = PostOutcome.sent mid →
      (sendWhatsAppMessage post phone msg).1 = productionSendResponse phone msg mid ∧
      (sendWhatsAppMessage post phone msg).2.1 = [] ∧
      (sendWhatsAppMessage post phone msg).2.2 = [1]) ∧
    (∀ e1 mid, post 1 = PostOutcome.failed e1 → post 2 = PostOutcome.sent mid →
      (sendWhatsAppMessage post phone msg).1 = productionSendResponse phone msg mid ∧
      (sendWhatsAppMessage post phone msg).2.1 = [1000] ∧
      (sendWhatsAppMessage post phone msg).2.2 = [1, 2]) ∧
    (∀ e1 e2 mid, post 1 = PostOutcome.failed e1 → post 2 = PostOutcome.failed e2 →
      post 3 = PostOutcome.sent mid →
      (sendWhatsAppMessage post phone msg).1 = productionSendResponse phone msg mid ∧
      (sendWhatsAppMessage post phone msg).2.1 = [1000, 2000] ∧
      (sendWhatsAppMessage post phone msg).2.2 = [1, 2, 3]) ∧
    (∀ e1 e2 e3, post 1 = PostOutcome.failed e1 → post 2 = PostOutcome.failed e2 →
      post 3 = PostOutcome.failed e3 →
      (sendWhatsAppMessage post phone msg).1 = fallbackSendResponse phone msg (some e3) ∧
      (sendWhatsAppMessage post phone msg).1.success = false ∧
      (sendWhatsAppMessage post phone msg).1.mode = modeFallback ∧
      (sendWhatsAppMessage post phone msg).1.waLink = some (waLink phone msg) ∧
      (sendWhatsAppMessage post phone msg).1.apiError = some e3 ∧
      (sendWhatsAppMessage post phone msg).2.1 = [1000, 2000] ∧
      (sendWhatsAppMessage post phone msg).2.2 = [1, 2, 3]) := by
  refine ⟨?_, ?_, ?_, ?_, ?_⟩
  · cases h1 : post 1 with
    | sent mid => simp [sendWhatsAppMessage, sendGo, h1]
    | failed e1 =>
      cases h2 : post 2 with
      | sent mid => simp [sendWhatsAppMessage, sendGo, h1, h2]
      | failed e2 =>
        cases h3 : post 3 with
        | sent mid => simp [sendWhatsAppMessage, sendGo, h1, h2, h3]
        | failed e3 => simp [sendWhatsAppMessage, sendGo, h1, h2, h3]
  · intro mid h1
    refine ⟨?_, ?_, ?_⟩ <;> simp [sendWhatsAppMessage, sendGo, h1]
  · intro e1 mid h1 h2
    refine ⟨?_, ?_, ?_⟩ <;> simp [sendWhatsAppMessage, sendGo, h1, h2]
  · intro e1 e2 mid h1 h2 h3
    refine ⟨?_, ?_, ?_⟩ <;> simp [sendWhatsAppMessage, sendGo, h1, h2, h3]
  · intro e1 e2 e3 h1 h2 h3
    refine ⟨?_, ?_, ?_, ?_, ?_, ?_, ?_⟩ <;>
      simp [sendWhatsAppMessage, sendGo, h1, h2, h3, fallbackSendResponse]

def errExample : JStr := "network timeout".toList

def postAllFail : ℕ → PostOutcome := fun _ => PostOutcome.failed errExample

def phoneExample : JStr := "+91 98765-43210".toList

def msgExample : JStr := "Hello artisans".toList

/-- Witness for claim C9 with an oracle that fails every attempt: three
attempts, backoffs of 1s and 2s, and the manual-action fallback response. -/
theorem claim_C9_witness :
    (sendWhatsAppMessage postAllFail phoneExample msgExample).1 =
      fallbackSendResponse phoneExample msgExample (some errExample) ∧
    (sendWhatsAppMessage postAllFail phoneExample msgExample).2.1 = [1000, 2000] ∧
    (sendWhatsAppMessage postAllFail phoneExample msgExample).2.2 = [1, 2, 3] := by
  have h := (claim_C9_whatsapp_retry postAllFail phoneExample msgExample).2.2.2.2
    errExample errExample errExample rfl rfl rfl
  exact ⟨h.1, h.2.2.2.2.2.1, h.2.2.2.2.2.2⟩
